import Mathlib

/-!
Verification development for the SOF (Sound Open Firmware) host driver core:
the IPC transport (message send / reply / timeout handling), the large
control-data chunker, and the pipeline lifecycle coordinator
(destroy / restore of widgets, routes, DAI links and kcontrol shadows).

The definitions below are shallow embeddings of the C functions in the
repository sources.  External collaborators that are not part of the
sources (the platform transport `snd_sof_dsp_send_msg`, the client
send wrapper `sof_client_tx_message`, the control send helper
`snd_sof_ipc_set_get_comp_data`, `sof_load_pipeline_ipc`,
`snd_sof_complete_pipeline`, the wait queue) are modelled as oracle
parameters supplying their observable outcomes, and each send is recorded
in an explicit trace so ordering and abort behaviour can be stated.
-/

set_option linter.unusedVariables false

namespace Sof

/-! ## Error numbers (Linux errno values; the C code returns their negations) -/

def EINVAL : Int := 22

def ENODEV : Int := 19

def ENOMEM : Int := 12

def ENOBUFS : Int := 105

def ETIMEDOUT : Int := 110

/-- Modelled from the spec: the maximum message size constant
(`SOF_IPC_MSG_MAX_SIZE`, defined in `sof-priv.h` which is not among the
sources).  The concrete value is irrelevant to every claim; only the
comparisons against it matter. -/
def SOF_IPC_MSG_MAX_SIZE : Nat := 384

/-- Modelled from the spec: the firmware ABI version gate value
`SOF_ABI_VER(3, 3, 0)` from the ABI header (not among the sources);
large control messages are only supported from this version onwards. -/
def SOF_ABI_VER_3_3_0 : Nat := 3 * 2 ^ 24 + 3 * 2 ^ 12

/-- Modelled from the spec: the invalid DMA channel marker
(`DMA_CHAN_INVALID`, defined in a platform header not among the sources). -/
def DMA_CHAN_INVALID : Nat := 4294967295

/-- `DIV_ROUND_UP` from the kernel: ceiling division on naturals. -/
def DIV_ROUND_UP (n d : Nat) : Nat := (n + d - 1) / d

/-- Overwrite the region of `l` starting at `off` with `d` (a `memcpy`
into a fixed-size buffer). -/
def listWrite (l : List Nat) (off : Nat) (d : List Nat) : List Nat :=
  l.take off ++ d ++ l.drop (off + d.length)

/-! ## IPC channel state (`struct snd_sof_ipc` / `struct snd_sof_ipc_msg`) -/

/-- The pending-message slot of the channel (`struct snd_sof_ipc_msg`). -/
structure SofIpcMsg where
  header : Nat
  msg_size : Nat
  reply_size : Nat
  reply_error : Int
  ipc_complete : Bool
  msg_data : List Nat
  reply_data : List Nat
  deriving DecidableEq

/-- The IPC channel (`struct snd_sof_ipc`): the permanent disable flag and
the single in-flight message slot. -/
structure SofIpc where
  disable_ipc_tx : Bool
  msg : SofIpcMsg
  deriving DecidableEq

/-- Observable device interactions performed by a send. -/
inductive DevAction where
  | set_power_state (target : Nat)
  | transport_send (header : Nat) (data : List Nat)
  | fw_exception
  deriving DecidableEq

def DevAction.isSend : DevAction → Bool
  | .transport_send _ _ => true
  | _ => false

/-- Outcome of the bounded wait for the reply (`wait_event_timeout`
together with the state the reply path left in the message slot). -/
inductive WaitOutcome where
  | timeout
  | completed (reply_error : Int) (reply_data : List Nat)
  deriving DecidableEq

/-- Oracle for one transmission attempt: the transport send result
(`snd_sof_dsp_send_msg`) and the wait outcome. -/
structure TxEnv where
  send_ret : Int
  wait : WaitOutcome
  deriving DecidableEq

structure WaitResult where
  ret : Int
  actions : List DevAction
  reply : Option (List Nat)
  deriving DecidableEq

/-- `tx_wait_done`: on timeout invoke the firmware-exception diagnostic and
return `-ETIMEDOUT`; on completion return the reply error verbatim and, if
it is non-negative and a reply is expected, copy the reply data out. -/
def tx_wait_done (w : WaitOutcome) (reply_size : Nat) : WaitResult :=
  match w with
  | .timeout =>
    { ret := -ETIMEDOUT, actions := [DevAction.fw_exception], reply := none }
  | .completed e rdata =>
    if e < 0 then { ret := e, actions := [], reply := none }
    else if reply_size ≠ 0 then
      { ret := e, actions := [], reply := some (rdata.take reply_size) }
    else { ret := e, actions := [], reply := none }

structure TxResult where
  ipc : SofIpc
  actions : List DevAction
  ret : Int
  reply : Option (List Nat)
  deriving DecidableEq

/-- `sof_ipc_tx_message_unlocked`: fail with `-ENODEV` when the channel is
disabled; otherwise initialise the message slot, hand the frame to the
transport, and (when the transport accepted it) wait for completion. -/
def sof_ipc_tx_message_unlocked (env : TxEnv) (ipc : SofIpc) (header : Nat)
    (msg_data : List Nat) (msg_bytes reply_bytes : Nat) : TxResult :=
  if ipc.disable_ipc_tx then
    { ipc := ipc, actions := [], ret := -ENODEV, reply := none }
  else
    let m0 := ipc.msg
    let m1 : SofIpcMsg :=
      { m0 with
        header := header
        msg_size := msg_bytes
        reply_size := reply_bytes
        reply_error := 0
        msg_data :=
          if msg_bytes ≠ 0 then listWrite m0.msg_data 0 (msg_data.take msg_bytes)
          else m0.msg_data }
    let ret := env.send_ret
    let m2 := if ret = 0 then { m1 with ipc_complete := false } else m1
    let acts := [DevAction.transport_send header (msg_data.take msg_bytes)]
    if ret < 0 then
      { ipc := { ipc with msg := m2 }, actions := acts, ret := ret, reply := none }
    else if ret ≠ 0 then
      { ipc := { ipc with msg := m2 }, actions := acts, ret := ret, reply := none }
    else
      let wr := tx_wait_done env.wait reply_bytes
      let m3 :=
        match env.wait with
        | .timeout => m2
        | .completed e rdata =>
          { m2 with ipc_complete := true, reply_error := e, reply_data := rdata }
      { ipc := { ipc with msg := m3 }
        actions := acts ++ wr.actions
        ret := wr.ret
        reply := wr.reply }

/-- `sof_ipc_tx_message_no_pm`: reject oversized payload or reply with
`-ENOBUFS` before touching the channel, then send under the TX mutex. -/
def sof_ipc_tx_message_no_pm (env : TxEnv) (ipc : SofIpc) (header : Nat)
    (msg_data : List Nat) (msg_bytes reply_bytes : Nat) : TxResult :=
  if msg_bytes > SOF_IPC_MSG_MAX_SIZE ∨ reply_bytes > SOF_IPC_MSG_MAX_SIZE then
    { ipc := ipc, actions := [], ret := -ENOBUFS, reply := none }
  else sof_ipc_tx_message_unlocked env ipc header msg_data msg_bytes reply_bytes

def SOF_DSP_PM_D0 : Nat := 0

/-- Oracle for the power-managed send: the result of
`snd_sof_dsp_set_power_state` plus the transmission oracle. -/
structure PmTxEnv where
  set_power_ret : Int
  tx : TxEnv
  deriving DecidableEq

/-- `sof_ipc_tx_message`: first drive the DSP to the D0 power state, then
delegate to the no-PM variant. -/
def sof_ipc_tx_message (env : PmTxEnv) (ipc : SofIpc) (header : Nat)
    (msg_data : List Nat) (msg_bytes reply_bytes : Nat) : TxResult :=
  if env.set_power_ret < 0 then
    { ipc := ipc
      actions := [DevAction.set_power_state SOF_DSP_PM_D0]
      ret := env.set_power_ret
      reply := none }
  else
    let r := sof_ipc_tx_message_no_pm env.tx ipc header msg_data msg_bytes reply_bytes
    { r with actions := DevAction.set_power_state SOF_DSP_PM_D0 :: r.actions }

structure ReplyResult where
  ipc : SofIpc
  woke : Bool
  ret : Int
  deriving DecidableEq

/-- `snd_sof_ipc_reply`: reject a reply when no command is pending,
otherwise mark the message complete and wake the waiting sender. -/
def snd_sof_ipc_reply (ipc : SofIpc) (msg_id : Nat) : ReplyResult :=
  if ipc.msg.ipc_complete then
    { ipc := ipc, woke := false, ret := -EINVAL }
  else
    { ipc := { ipc with msg := { ipc.msg with ipc_complete := true } }
      woke := true
      ret := 0 }

/-- `snd_sof_ipc_free`: permanently disable further sending. -/
def snd_sof_ipc_free (ipc : SofIpc) : SofIpc :=
  { ipc with disable_ipc_tx := true }

/-- The operations of the IPC layer that act on the channel state. -/
inductive IpcOp where
  | tx_unlocked (env : TxEnv) (header : Nat) (msg_data : List Nat)
      (msg_bytes reply_bytes : Nat)
  | tx_no_pm (env : TxEnv) (header : Nat) (msg_data : List Nat)
      (msg_bytes reply_bytes : Nat)
  | tx_pm (env : PmTxEnv) (header : Nat) (msg_data : List Nat)
      (msg_bytes reply_bytes : Nat)
  | reply (msg_id : Nat)
  | free

def IpcOp.apply (op : IpcOp) (ipc : SofIpc) : SofIpc :=
  match op with
  | .tx_unlocked env h d mb rb => (sof_ipc_tx_message_unlocked env ipc h d mb rb).ipc
  | .tx_no_pm env h d mb rb => (sof_ipc_tx_message_no_pm env ipc h d mb rb).ipc
  | .tx_pm env h d mb rb => (sof_ipc_tx_message env ipc h d mb rb).ipc
  | .reply mid => (snd_sof_ipc_reply ipc mid).ipc
  | .free => snd_sof_ipc_free ipc

def IpcOp.applyAll (ops : List IpcOp) (ipc : SofIpc) : SofIpc :=
  match ops with
  | [] => ipc
  | op :: rest => IpcOp.applyAll rest (op.apply ipc)

/-! ## Large control-data chunker
(`sof_get_ctrl_copy_params` / `sof_ipc_set_get_large_ctrl_data`) -/

/-- The control value types (`enum sof_ipc_ctrl_type`). -/
inductive SofCtrlType where
  | value_chan_get
  | value_chan_set
  | value_comp_get
  | value_comp_set
  | data_get
  | data_set
  deriving DecidableEq

/-- Which union member of `struct sof_ipc_ctrl_data` the copy source and
destination point at. -/
inductive CtrlBuf where
  | chanv
  | compv
  | data_buf
  deriving DecidableEq

/-- `struct sof_ipc_ctrl_data_params`: sizes of the transfer and the
derived per-message payload size and message count. -/
structure CtrlDataParams where
  msg_bytes : Nat
  hdr_bytes : Nat
  pl_size : Nat
  num_msg : Nat
  buf : CtrlBuf
  deriving DecidableEq

/-- `sof_get_ctrl_copy_params`: select the copy buffers by control type,
then compute the payload capacity (max message size minus header bytes)
and the message count (ceiling of total bytes over capacity).  The C
switch has an unreachable default returning `-EINVAL`; every value of
`enum sof_ipc_ctrl_type` is one of the six listed cases. -/
def sof_get_ctrl_copy_params (ctrl_type : SofCtrlType)
    (sparams : CtrlDataParams) : CtrlDataParams :=
  let sp :=
    match ctrl_type with
    | SofCtrlType.value_chan_get | SofCtrlType.value_chan_set =>
      { sparams with buf := CtrlBuf.chanv }
    | SofCtrlType.value_comp_get | SofCtrlType.value_comp_set =>
      { sparams with buf := CtrlBuf.compv }
    | SofCtrlType.data_get | SofCtrlType.data_set =>
      { sparams with buf := CtrlBuf.data_buf }
  { sp with
    pl_size := SOF_IPC_MSG_MAX_SIZE - sp.hdr_bytes
    num_msg := DIV_ROUND_UP sp.msg_bytes (SOF_IPC_MSG_MAX_SIZE - sp.hdr_bytes) }

/-- One chunk message as transmitted: the per-round element count, the
zero-based sequence index, the bytes remaining after this round, the
total message size, and (for the set direction) the payload slice copied
into the message buffer before sending. -/
structure ChunkMsg where
  num_elems : Nat
  msg_index : Nat
  elems_remaining : Nat
  size : Nat
  payload : List Nat
  deriving DecidableEq

structure ChunkResult where
  chunks : List ChunkMsg
  dst : List Nat
  err : Int
  deriving DecidableEq

/-- Configure one chunk message: the per-round field assignments on
`partdata` in `sof_ipc_set_get_large_ctrl_data`.  This round sends
`min msg_bytes pl_size` bytes, records the zero-based index `i` and the
bytes remaining after this round, and for the set direction copies the
next slice of the caller source buffer into the message. -/
def chunk_msg (send : Bool) (hdr_bytes : Nat) (src : List Nat)
    (i msg_bytes offset pl_size : Nat) : ChunkMsg :=
  let send_bytes := min msg_bytes pl_size
  { num_elems := send_bytes
    msg_index := i
    elems_remaining := msg_bytes - send_bytes
    size := hdr_bytes + send_bytes
    payload := if send then (src.drop offset).take send_bytes else [] }

/-- The per-message loop of `sof_ipc_set_get_large_ctrl_data`, recursing
on the number of messages still to send (`num_msg - i`).  Arguments after
the fuel are the loop variables `i`, `msg_bytes`, `offset`, the caller
destination buffer, and the current `err` value.  For the get direction
the reply payload for round `i` is supplied by the `rx` oracle; the
message buffer contents are only meaningful for the set direction. -/
def ctrl_chunk_loop (tx : ChunkMsg → Int) (rx : Nat → List Nat) (send : Bool)
    (hdr_bytes pl_size : Nat) (src : List Nat) :
    Nat → Nat → Nat → Nat → List Nat → Int → ChunkResult
  | 0, _, _, _, dst, err => { chunks := [], dst := dst, err := err }
  | n + 1, i, msg_bytes, offset, dst, _ =>
    let send_bytes := min msg_bytes pl_size
    let m := chunk_msg send hdr_bytes src i msg_bytes offset pl_size
    let err := tx m
    if err < 0 then { chunks := [m], dst := dst, err := err }
    else
      let dst2 := if send then dst else listWrite dst offset ((rx i).take send_bytes)
      let res := ctrl_chunk_loop tx rx send hdr_bytes pl_size src n (i + 1)
        (msg_bytes - send_bytes) (offset + pl_size) dst2 err
      { chunks := m :: res.chunks, dst := res.dst, err := res.err }

/-- `sof_ipc_set_get_large_ctrl_data`: gate on the firmware ABI version,
allocate the bounce buffer, derive the copy parameters, then send the
chunk sequence under the TX mutex.  `src` is the caller source buffer
(set direction) and `dst` the caller destination buffer (get direction). -/
def sof_ipc_set_get_large_ctrl_data (abi_version : Nat) (alloc_ok : Bool)
    (tx : ChunkMsg → Int) (rx : Nat → List Nat) (ctrl_type : SofCtrlType)
    (sparams : CtrlDataParams) (src dst : List Nat) (send : Bool) :
    ChunkResult :=
  if abi_version < SOF_ABI_VER_3_3_0 then
    { chunks := [], dst := dst, err := -EINVAL }
  else if alloc_ok = false then { chunks := [], dst := dst, err := -ENOMEM }
  else
    let sp := sof_get_ctrl_copy_params ctrl_type sparams
    ctrl_chunk_loop tx rx send sp.hdr_bytes sp.pl_size src sp.num_msg 0
      sp.msg_bytes 0 dst 0

/-! ## Pipeline lifecycle coordinator (`sof-audio` client)

The audio device keeps ordered lists of widgets, routes, DAI links and
kcontrols (`struct sof_audio_dev`); list insertion order is pipeline
dependency order.  The coordinator walks these lists to destroy and
restore the DSP-resident graph. -/

/-- The widget kinds distinguished by the coordinator
(`enum snd_soc_dapm_type`, restricted to the cases the switches test,
with `other` standing for every remaining DAPM type). -/
inductive DapmType where
  | dai_in
  | dai_out
  | scheduler
  | buffer
  | other
  deriving DecidableEq

/-- `struct snd_sof_widget`: stable component id, widget kind, the
retained opaque construction payload (`private`, absent when nothing was
built), and the pipeline-complete flag. -/
structure Widget where
  comp_id : Nat
  id : DapmType
  priv : Option (List Nat)
  complete : Int
  deriving DecidableEq

/-- `struct snd_sof_route`: endpoint names and the retained opaque
connection payload. -/
structure Route where
  sink : String
  control : Option String
  source : String
  priv : Option (List Nat)
  deriving DecidableEq

/-- DAI interface kinds (`enum sof_ipc_dai_type`, restricted to the one
case the restore path tests, `SOF_DAI_INTEL_HDA`, with `other` standing
for every remaining type). -/
inductive DaiType where
  | intel_hda
  | other
  deriving DecidableEq

/-- `struct sof_ipc_dai_config`: the interface kind, the command and size
of the stored configuration message, and the HDA link DMA channel. -/
structure DaiConfig where
  typ : DaiType
  cmd : Nat
  size : Nat
  link_dma_ch : Nat
  deriving DecidableEq

/-- `struct snd_sof_dai`: name and the last-applied configuration. -/
structure SofDai where
  name : String
  dai_config : Option DaiConfig
  deriving DecidableEq

/-- Control command kinds (`enum sof_ipc_ctrl_cmd`). -/
inductive CtrlCmd where
  | volume
  | enum_ctl
  | switch_ctl
  | binary
  deriving DecidableEq

/-- `struct snd_sof_control`: owning component id, control command kind,
and the binary readback cursor. -/
structure SofControl where
  comp_id : Nat
  cmd : CtrlCmd
  readback_offset : Nat
  deriving DecidableEq

/-- `struct sof_audio_dev`: the four ordered lists, in creation order. -/
structure AudioDev where
  widget_list : List Widget
  route_list : List Route
  dai_list : List SofDai
  kcontrol_list : List SofControl
  deriving DecidableEq

/-! ### Destroy pass (`sof_destroy_pipelines`) -/

/-- The topology free operation selected for a widget
(`SOF_IPC_TPLG_PIPE_FREE` / `SOF_IPC_TPLG_BUFFER_FREE` /
`SOF_IPC_TPLG_COMP_FREE`). -/
inductive FreeKind where
  | pipe_free
  | buffer_free
  | comp_free
  deriving DecidableEq

/-- A transmitted `struct sof_ipc_free` command. -/
structure FreeMsg where
  cmd : FreeKind
  id : Nat
  deriving DecidableEq

structure DestroyResult where
  trace : List FreeMsg
  ret : Int
  deriving DecidableEq

/-- Configure the `struct sof_ipc_free` message for a widget: the switch
on `swidget->id` in `sof_destroy_pipelines`. -/
def ipc_free_msg (w : Widget) : FreeMsg :=
  { cmd :=
      match w.id with
      | DapmType.scheduler => FreeKind.pipe_free
      | DapmType.buffer => FreeKind.buffer_free
      | _ => FreeKind.comp_free
    id := w.comp_id }

/-- The body of the destroy loop over an explicit widget sequence,
threading the C `ret` variable.  Widgets without retained construction
payload are skipped; otherwise the free command for the widget kind is
sent and a negative result aborts the walk. -/
def destroy_widgets (tx : FreeMsg → Int) (ret : Int) :
    List Widget → DestroyResult
  | [] => { trace := [], ret := ret }
  | w :: rest =>
    match w.priv with
    | none => destroy_widgets tx ret rest
    | some _ =>
      let m := ipc_free_msg w
      let r := tx m
      if r < 0 then { trace := [m], ret := r }
      else
        let res := destroy_widgets tx r rest
        { trace := m :: res.trace, ret := res.ret }

/-- `sof_destroy_pipelines`: walk the widget list in reverse creation
order. -/
def sof_destroy_pipelines (tx : FreeMsg → Int) (a : AudioDev) :
    DestroyResult :=
  destroy_widgets tx 0 a.widget_list.reverse

/-! ### Kcontrol shadow restore (`sof_restore_kcontrols`) -/

/-- The component operation codes used for kcontrol restore
(`SOF_IPC_COMP_SET_VALUE` / `SOF_IPC_COMP_SET_DATA`). -/
inductive CompCmdKind where
  | set_value
  | set_data
  deriving DecidableEq

/-- One kcontrol replay command as handed to
`snd_sof_ipc_set_get_comp_data`: the target component, the IPC operation
code, the control value type, and the control command kind. -/
structure KctlMsg where
  comp_id : Nat
  ipc_cmd : CompCmdKind
  ctrl_type : SofCtrlType
  cmd : CtrlCmd
  deriving DecidableEq

structure KctlResult where
  controls : List SofControl
  trace : List KctlMsg
  ret : Int
  deriving DecidableEq

/-- Select the IPC operation code and control value type for one
kcontrol: the switch on `scontrol->cmd` in `sof_restore_kcontrols`. -/
def kctl_restore_msg (c : SofControl) : KctlMsg :=
  match c.cmd with
  | CtrlCmd.volume | CtrlCmd.enum_ctl | CtrlCmd.switch_ctl =>
    { comp_id := c.comp_id
      ipc_cmd := CompCmdKind.set_value
      ctrl_type := SofCtrlType.value_chan_set
      cmd := c.cmd }
  | CtrlCmd.binary =>
    { comp_id := c.comp_id
      ipc_cmd := CompCmdKind.set_data
      ctrl_type := SofCtrlType.data_set
      cmd := c.cmd }

/-- `sof_restore_kcontrols`: walk the kcontrol list in order; for each
control first reset its readback cursor to zero, then replay its value
with the operation pair for its kind; a negative result aborts the walk
and is returned, otherwise the pass returns 0. -/
def sof_restore_kcontrols (tx : KctlMsg → Int) :
    List SofControl → KctlResult
  | [] => { controls := [], trace := [], ret := 0 }
  | c :: rest =>
    let c2 : SofControl := { c with readback_offset := 0 }
    let m := kctl_restore_msg c
    let r := tx m
    if r < 0 then { controls := c2 :: rest, trace := [m], ret := r }
    else
      let res := sof_restore_kcontrols tx rest
      { controls := c2 :: res.controls
        trace := m :: res.trace
        ret := res.ret }

/-! ### Restore pass (`sof_restore_pipelines`) -/

/-- The commands a restore pass can issue, in trace form. -/
inductive RMsg where
  | widget_dai (comp_id : Nat)
  | widget_pipe (comp_id : Nat)
  | widget_generic (comp_id : Nat)
  | route_connect (sink : String) (source : String) (payload : List Nat)
  | dai_config (name : String) (cfg : DaiConfig)
  | pipe_complete (comp_id : Nat)
  | kctl (m : KctlMsg)
  deriving DecidableEq

def RMsg.isDai : RMsg → Bool
  | .dai_config _ _ => true
  | _ => false

def RMsg.isComplete : RMsg → Bool
  | .pipe_complete _ => true
  | _ => false

def RMsg.isKctl : RMsg → Bool
  | .kctl _ => true
  | _ => false

structure PhaseResult where
  trace : List RMsg
  ret : Int
  deriving DecidableEq

/-- Select the widget construction replay path: the switch on
`swidget->id` in `sof_restore_pipelines`. -/
def restore_widget_msg (w : Widget) : RMsg :=
  match w.id with
  | DapmType.dai_in | DapmType.dai_out => RMsg.widget_dai w.comp_id
  | DapmType.scheduler => RMsg.widget_pipe w.comp_id
  | _ => RMsg.widget_generic w.comp_id

/-- Restore phase 1: replay widget construction over an explicit widget
sequence.  Widgets without retained payload are skipped; DAI endpoints
replay the stored `comp_dai`, schedulers go through the pipeline creation
path (`sof_load_pipeline_ipc`), everything else replays its opaque
payload; a negative result aborts the walk. -/
def restore_widgets (tx : RMsg → Int) (ret : Int) :
    List Widget → PhaseResult
  | [] => { trace := [], ret := ret }
  | w :: rest =>
    match w.priv with
    | none => restore_widgets tx ret rest
    | some _ =>
      let m := restore_widget_msg w
      let r := tx m
      if r < 0 then { trace := [m], ret := r }
      else
        let res := restore_widgets tx r rest
        { trace := m :: res.trace, ret := res.ret }

/-- Restore phase 2: replay route connections over an explicit route
sequence; routes without retained payload are skipped; a negative result
aborts the walk. -/
def restore_routes (tx : RMsg → Int) (ret : Int) : List Route → PhaseResult
  | [] => { trace := [], ret := ret }
  | rt :: rest =>
    match rt.priv with
    | none => restore_routes tx ret rest
    | some p =>
      let m := RMsg.route_connect rt.sink rt.source p
      let r := tx m
      if r < 0 then { trace := [m], ret := r }
      else
        let res := restore_routes tx r rest
        { trace := m :: res.trace, ret := res.ret }

structure DaiPhaseResult where
  dais : List SofDai
  trace : List RMsg
  ret : Int
  deriving DecidableEq

/-- Invalidate the link DMA channel of an HDA configuration before
replaying it (the link DMA channel cannot be assumed valid after a power
cycle); configurations of other interface kinds are untouched. -/
def invalidate_hda_chan (cfg : DaiConfig) : DaiConfig :=
  if cfg.typ = DaiType.intel_hda then
    { cfg with link_dma_ch := DMA_CHAN_INVALID }
  else cfg

/-- Restore phase 3: replay DAI configurations over an explicit DAI
sequence.  A link without stored configuration is skipped with a
diagnostic; an HDA link first has its DMA channel invalidated in the
stored configuration; a negative result aborts the walk.  The returned
DAI sequence carries the configuration mutations. -/
def restore_dais (tx : RMsg → Int) (ret : Int) : List SofDai → DaiPhaseResult
  | [] => { dais := [], trace := [], ret := ret }
  | d :: rest =>
    match d.dai_config with
    | none =>
      let res := restore_dais tx ret rest
      { dais := d :: res.dais, trace := res.trace, ret := res.ret }
    | some cfg =>
      let cfg2 := invalidate_hda_chan cfg
      let d2 : SofDai := { d with dai_config := some cfg2 }
      let m := RMsg.dai_config d.name cfg2
      let r := tx m
      if r < 0 then { dais := d2 :: rest, trace := [m], ret := r }
      else
        let res := restore_dais tx r rest
        { dais := d2 :: res.dais, trace := m :: res.trace, ret := res.ret }

/-- Restore phase 4: walk the widget list in forward order and re-run the
pipeline completion check (`snd_sof_complete_pipeline`, modelled by the
`cfn` oracle) on each scheduler widget, storing its result in the
`complete` flag; no result aborts this phase.  The trace records each
completion attempt. -/
def complete_pipelines (cfn : Widget → Int) :
    List Widget → List Widget × List RMsg
  | [] => ([], [])
  | w :: rest =>
    let res := complete_pipelines cfn rest
    match w.id with
    | DapmType.scheduler =>
      ({ w with complete := cfn w } :: res.1,
       RMsg.pipe_complete w.comp_id :: res.2)
    | _ => (w :: res.1, res.2)

structure RestoreResult where
  dev : AudioDev
  trace : List RMsg
  ret : Int
  deriving DecidableEq

/-- `sof_restore_pipelines`: widgets in reverse creation order, then
routes in reverse creation order, then DAI links in reverse creation
order, then pipeline completion in forward order, then the kcontrol
shadows; the first failing phase aborts the pass and its error is
returned, and the final return value is that of the kcontrol restore. -/
def sof_restore_pipelines (tx : RMsg → Int) (cfn : Widget → Int)
    (a : AudioDev) : RestoreResult :=
  let wres := restore_widgets tx 0 a.widget_list.reverse
  if wres.ret < 0 then { dev := a, trace := wres.trace, ret := wres.ret }
  else
    let rres := restore_routes tx 0 a.route_list.reverse
    if rres.ret < 0 then
      { dev := a, trace := wres.trace ++ rres.trace, ret := rres.ret }
    else
      let dres := restore_dais tx 0 a.dai_list.reverse
      let a2 := { a with dai_list := dres.dais.reverse }
      if dres.ret < 0 then
        { dev := a2
          trace := wres.trace ++ rres.trace ++ dres.trace
          ret := dres.ret }
      else
        let cres := complete_pipelines cfn a2.widget_list
        let a3 := { a2 with widget_list := cres.1 }
        let kres :=
          sof_restore_kcontrols (fun m => tx (RMsg.kctl m)) a3.kcontrol_list
        let a4 := { a3 with kcontrol_list := kres.controls }
        { dev := a4
          trace := wres.trace ++ rres.trace ++ dres.trace ++ cres.2 ++
            kres.trace.map RMsg.kctl
          ret := kres.ret }

/-! ## Specification-side expectations

The following definitions re-state, in the words of the specification,
which commands each pass is expected to issue and in which order.  The
claim theorems compare the traces produced by the source embeddings
above against these lists. -/

/-- Spec: the free operation code selected by widget kind
(pipeline-root to pipeline-free, inter-buffer to buffer-free, all other
kinds to the generic component-free). -/
def specFreeCmd (k : DapmType) : FreeKind :=
  match k with
  | DapmType.scheduler => FreeKind.pipe_free
  | DapmType.buffer => FreeKind.buffer_free
  | DapmType.dai_in => FreeKind.comp_free
  | DapmType.dai_out => FreeKind.comp_free
  | DapmType.other => FreeKind.comp_free

/-- Spec: the free commands for a widget sequence, skipping widgets with
no retained construction payload. -/
def specFreeList (ws : List Widget) : List FreeMsg :=
  ws.filterMap fun w =>
    w.priv.map fun _ => { cmd := specFreeCmd w.id, id := w.comp_id }

/-- Spec: the destroy pass visits components in reverse creation order. -/
def specDestroyMsgs (a : AudioDev) : List FreeMsg :=
  specFreeList a.widget_list.reverse

/-- Spec: the construction replay path selected by widget kind
(DAI endpoints replay directly, pipeline roots go through the pipeline
creation path, everything else replays its opaque payload). -/
def specWidgetKindMsg (w : Widget) : RMsg :=
  match w.id with
  | DapmType.dai_in => RMsg.widget_dai w.comp_id
  | DapmType.dai_out => RMsg.widget_dai w.comp_id
  | DapmType.scheduler => RMsg.widget_pipe w.comp_id
  | DapmType.buffer => RMsg.widget_generic w.comp_id
  | DapmType.other => RMsg.widget_generic w.comp_id

/-- Spec: the widget replay commands for a widget sequence, skipping
widgets with no retained payload. -/
def specWidgetList (ws : List Widget) : List RMsg :=
  ws.filterMap fun w => w.priv.map fun _ => specWidgetKindMsg w

/-- Spec: widget replay runs in reverse creation order. -/
def specWidgetMsgs (a : AudioDev) : List RMsg :=
  specWidgetList a.widget_list.reverse

/-- Spec: the route replay commands for a route sequence, skipping routes
with no retained payload. -/
def specRouteList (rs : List Route) : List RMsg :=
  rs.filterMap fun rt =>
    rt.priv.map fun p => RMsg.route_connect rt.sink rt.source p

/-- Spec: route replay runs in reverse creation order. -/
def specRouteMsgs (a : AudioDev) : List RMsg :=
  specRouteList a.route_list.reverse

/-- Spec: before a DAI configuration of the DMA-allocating interface
class is replayed, its shared DMA resource id is invalidated. -/
def specInvalidate (cfg : DaiConfig) : DaiConfig :=
  match cfg.typ with
  | DaiType.intel_hda => { cfg with link_dma_ch := DMA_CHAN_INVALID }
  | DaiType.other => cfg

/-- Spec: the DAI configuration replay commands for a DAI sequence,
skipping links with no stored configuration. -/
def specDaiList (ds : List SofDai) : List RMsg :=
  ds.filterMap fun d =>
    d.dai_config.map fun cfg => RMsg.dai_config d.name (specInvalidate cfg)

/-- The DAI replay commands in reverse creation order. -/
def specDaiMsgsRev (a : AudioDev) : List RMsg :=
  specDaiList a.dai_list.reverse

/-- The DAI replay commands in original forward creation order (the order
the claim asserts). -/
def specDaiMsgsFwd (a : AudioDev) : List RMsg :=
  specDaiList a.dai_list

/-- Spec: the set-operation and value-type pair matching a control kind
(volume, enum and switch use the inline set-value pair; opaque binary
uses the set-data pair). -/
def specKctlMsg (c : SofControl) : KctlMsg :=
  match c.cmd with
  | CtrlCmd.volume =>
    { comp_id := c.comp_id, ipc_cmd := CompCmdKind.set_value
      ctrl_type := SofCtrlType.value_chan_set, cmd := c.cmd }
  | CtrlCmd.enum_ctl =>
    { comp_id := c.comp_id, ipc_cmd := CompCmdKind.set_value
      ctrl_type := SofCtrlType.value_chan_set, cmd := c.cmd }
  | CtrlCmd.switch_ctl =>
    { comp_id := c.comp_id, ipc_cmd := CompCmdKind.set_value
      ctrl_type := SofCtrlType.value_chan_set, cmd := c.cmd }
  | CtrlCmd.binary =>
    { comp_id := c.comp_id, ipc_cmd := CompCmdKind.set_data
      ctrl_type := SofCtrlType.data_set, cmd := c.cmd }

/-- Spec: every tracked control is replayed, in list order. -/
def specKctlMsgs (l : List SofControl) : List KctlMsg :=
  l.map specKctlMsg

/-- Spec: the chunk with zero-based index `j` of a transfer of `S` total
bytes at capacity `C` carries `min (S - C * j) C` bytes, its index, and
the `S - min S (C * (j + 1))` bytes remaining after this round; for the
set direction its payload is the corresponding slice of the source. -/
def specChunk (send : Bool) (hdr : Nat) (src : List Nat) (S C j : Nat) :
    ChunkMsg :=
  { num_elems := min (S - C * j) C
    msg_index := j
    elems_remaining := S - min S (C * (j + 1))
    size := hdr + min (S - C * j) C
    payload :=
      if send then (src.drop (C * j)).take (min (S - C * j) C) else [] }

/-! ## Concrete fixtures used by witnesses and counterexamples -/

def exMsgSlot : SofIpcMsg :=
  { header := 0, msg_size := 0, reply_size := 0, reply_error := 0
    ipc_complete := true, msg_data := [], reply_data := [] }

def exIpcDisabled : SofIpc := { disable_ipc_tx := true, msg := exMsgSlot }

def exIpcEnabled : SofIpc := { disable_ipc_tx := false, msg := exMsgSlot }

def exTimeoutEnv : TxEnv := { send_ret := 0, wait := WaitOutcome.timeout }

def exPmEnv : PmTxEnv := { set_power_ret := 0, tx := exTimeoutEnv }

/-- Two DAI links with stored non-HDA configurations, in creation order. -/
def exDevDai : AudioDev :=
  { widget_list := []
    route_list := []
    dai_list :=
      [ { name := "ssp-a"
          dai_config := some { typ := DaiType.other, cmd := 10, size := 4, link_dma_ch := 7 } }
      , { name := "ssp-b"
          dai_config := some { typ := DaiType.other, cmd := 11, size := 4, link_dma_ch := 8 } } ]
    kcontrol_list := [] }

/-- Widgets of every relevant kind, one of them with no retained payload. -/
def exDevWidgets : AudioDev :=
  { widget_list :=
      [ { comp_id := 1, id := DapmType.scheduler, priv := some [1], complete := 0 }
      , { comp_id := 2, id := DapmType.buffer, priv := some [2], complete := 0 }
      , { comp_id := 3, id := DapmType.other, priv := none, complete := 0 }
      , { comp_id := 4, id := DapmType.other, priv := some [4], complete := 0 } ]
    route_list := []
    dai_list := []
    kcontrol_list := [] }

/-- One widget and three routes, in creation order. -/
def exDevRoutes : AudioDev :=
  { widget_list :=
      [ { comp_id := 1, id := DapmType.other, priv := some [9], complete := 0 } ]
    route_list :=
      [ { sink := "s1", control := none, source := "p1", priv := some [1] }
      , { sink := "s2", control := none, source := "p2", priv := some [2] }
      , { sink := "s3", control := none, source := "p3", priv := some [3] } ]
    dai_list := []
    kcontrol_list := [] }

/-- The route-replay oracle that fails exactly on the second replayed
route of `exDevRoutes` (reverse order replays payload 3, then 2, then 1). -/
def exRouteTx : RMsg → Int
  | RMsg.route_connect _ _ p => if p = [2] then -17 else 0
  | _ => 0

def exControls : List SofControl :=
  [ { comp_id := 21, cmd := CtrlCmd.volume, readback_offset := 5 }
  , { comp_id := 22, cmd := CtrlCmd.binary, readback_offset := 3 }
  , { comp_id := 23, cmd := CtrlCmd.switch_ctl, readback_offset := 9 } ]

/-- A destroy oracle failing exactly on the buffer-free command of
`exDevWidgets`. -/
def exFreeTx : FreeMsg → Int :=
  fun m => if m.id = 2 then -7 else 0

/-- A kcontrol oracle failing exactly on the binary control of
`exControls`. -/
def exKctlTx : KctlMsg → Int :=
  fun m => if m.comp_id = 22 then -9 else 0

def exChunkParams : CtrlDataParams :=
  { msg_bytes := 5, hdr_bytes := 382, pl_size := 0, num_msg := 0
    buf := CtrlBuf.chanv }

/-! ## Bridge lemmas: the message selection in the source embeddings
agrees with the specification-side selection -/

theorem ipc_free_msg_spec (w : Widget) :
    ipc_free_msg w = { cmd := specFreeCmd w.id, id := w.comp_id } := by
  obtain ⟨cid, k, pv, cp⟩ := w
  cases k <;> rfl

theorem restore_widget_msg_spec (w : Widget) :
    restore_widget_msg w = specWidgetKindMsg w := by
  obtain ⟨cid, k, pv, cp⟩ := w
  cases k <;> rfl

theorem invalidate_hda_chan_spec (cfg : DaiConfig) :
    invalidate_hda_chan cfg = specInvalidate cfg := by
  obtain ⟨t, c, s, l⟩ := cfg
  cases t <;> rfl

theorem kctl_restore_msg_spec (c : SofControl) :
    kctl_restore_msg c = specKctlMsg c := by
  obtain ⟨cid, k, ro⟩ := c
  cases k <;> rfl

/-! ## IPC channel lemmas -/

/-- Every operation of the IPC layer leaves the disable flag set once it
is set; in particular nothing ever clears it. -/
theorem IpcOp.apply_disable (op : IpcOp) (ipc : SofIpc)
    (h : ipc.disable_ipc_tx = true) :
    (op.apply ipc).disable_ipc_tx = true := by
  cases op with
  | tx_unlocked env hd d mb rb =>
    simp [IpcOp.apply, sof_ipc_tx_message_unlocked, h]
  | tx_no_pm env hd d mb rb =>
    by_cases hb : mb > SOF_IPC_MSG_MAX_SIZE ∨ rb > SOF_IPC_MSG_MAX_SIZE
    · simp [IpcOp.apply, sof_ipc_tx_message_no_pm, hb, h]
    · simp [IpcOp.apply, sof_ipc_tx_message_no_pm, hb,
        sof_ipc_tx_message_unlocked, h]
  | tx_pm env hd d mb rb =>
    by_cases hp : env.set_power_ret < 0
    · simp [IpcOp.apply, sof_ipc_tx_message, hp, h]
    · by_cases hb : mb > SOF_IPC_MSG_MAX_SIZE ∨ rb > SOF_IPC_MSG_MAX_SIZE
      · simp [IpcOp.apply, sof_ipc_tx_message, hp, sof_ipc_tx_message_no_pm,
          hb, h]
      · simp [IpcOp.apply, sof_ipc_tx_message, hp, sof_ipc_tx_message_no_pm,
          hb, sof_ipc_tx_message_unlocked, h]
  | reply mid =>
    by_cases hc : ipc.msg.ipc_complete <;>
      simp [IpcOp.apply, snd_sof_ipc_reply, hc, h]
  | free => simp [IpcOp.apply, snd_sof_ipc_free]

theorem IpcOp.applyAll_disable (ops : List IpcOp) (ipc : SofIpc)
    (h : ipc.disable_ipc_tx = true) :
    (IpcOp.applyAll ops ipc).disable_ipc_tx = true := by
  induction ops generalizing ipc with
  | nil => exact h
  | cons op rest ih => exact ih _ (IpcOp.apply_disable op ipc h)

/-! ## Claim theorems for the IPC channel -/

/-- Claim C5: a send attempted after the channel has been marked disabled
returns the no-device error immediately, performs no transport write and
leaves the channel state untouched; and no operation of the layer ever
clears the disabled flag once it is set. -/
theorem c5_disabled_channel (env : TxEnv) (ipc : SofIpc) (header : Nat)
    (msg_data : List Nat) (msg_bytes reply_bytes : Nat)
    (h : ipc.disable_ipc_tx = true) :
    (sof_ipc_tx_message_unlocked env ipc header msg_data msg_bytes
      reply_bytes).ret = -ENODEV ∧
    (sof_ipc_tx_message_unlocked env ipc header msg_data msg_bytes
      reply_bytes).actions = [] ∧
    (sof_ipc_tx_message_unlocked env ipc header msg_data msg_bytes
      reply_bytes).ipc = ipc ∧
    ∀ ops : List IpcOp, (IpcOp.applyAll ops ipc).disable_ipc_tx = true := by
  refine ⟨?_, ?_, ?_, fun ops => IpcOp.applyAll_disable ops ipc h⟩ <;>
    simp [sof_ipc_tx_message_unlocked, h]

/-- Witness for C5 at a concrete disabled channel. -/
theorem c5_disabled_channel_witness :
    (sof_ipc_tx_message_unlocked exTimeoutEnv exIpcDisabled 5 [1] 1 0).ret =
      -ENODEV ∧
    (sof_ipc_tx_message_unlocked exTimeoutEnv exIpcDisabled 5 [1] 1 0).actions =
      [] ∧
    (IpcOp.applyAll [IpcOp.free, IpcOp.reply 3] exIpcDisabled).disable_ipc_tx =
      true := by
  obtain ⟨h1, h2, h3, h4⟩ :=
    c5_disabled_channel exTimeoutEnv exIpcDisabled 5 [1] 1 0 rfl
  exact ⟨h1, h2, h4 _⟩

/-- Claim C6: when the bounded wait for the reply elapses, the send
invokes the firmware-exception diagnostic and returns the timeout error,
and the transport write happened exactly once (no retransmission by this
layer). -/
theorem c6_timeout_exception (env : TxEnv) (ipc : SofIpc) (header : Nat)
    (msg_data : List Nat) (msg_bytes reply_bytes : Nat)
    (hd : ipc.disable_ipc_tx = false) (hs : env.send_ret = 0)
    (hw : env.wait = WaitOutcome.timeout) :
    (sof_ipc_tx_message_unlocked env ipc header msg_data msg_bytes
      reply_bytes).ret = -ETIMEDOUT ∧
    (sof_ipc_tx_message_unlocked env ipc header msg_data msg_bytes
      reply_bytes).actions =
      [DevAction.transport_send header (msg_data.take msg_bytes),
       DevAction.fw_exception] ∧
    ((sof_ipc_tx_message_unlocked env ipc header msg_data msg_bytes
      reply_bytes).actions.filter DevAction.isSend).length = 1 := by
  refine ⟨?_, ?_, ?_⟩ <;>
    simp [sof_ipc_tx_message_unlocked, hd, hs, hw, tx_wait_done,
      DevAction.isSend]

/-- Witness for C6 at a concrete timed-out send. -/
theorem c6_timeout_exception_witness :
    (sof_ipc_tx_message_unlocked exTimeoutEnv exIpcEnabled 5 [1, 2] 2 0).ret =
      -ETIMEDOUT ∧
    (sof_ipc_tx_message_unlocked exTimeoutEnv exIpcEnabled 5 [1, 2] 2 0).actions =
      [DevAction.transport_send 5 [1, 2], DevAction.fw_exception] := by
  obtain ⟨h1, h2, h3⟩ :=
    c6_timeout_exception exTimeoutEnv exIpcEnabled 5 [1, 2] 2 0 rfl rfl rfl
  exact ⟨h1, h2⟩

/-- Counterexample to claim C8 as stated: an oversized send through the
power-managed path returns the no-buffer-space error, but a power-state
change of the device has already happened when it does, so the protocol
error does not precede every device interaction. -/
theorem c8_counterexample :
    (sof_ipc_tx_message exPmEnv exIpcEnabled 1 []
      (SOF_IPC_MSG_MAX_SIZE + 1) 0).ret = -ENOBUFS ∧
    (sof_ipc_tx_message exPmEnv exIpcEnabled 1 []
      (SOF_IPC_MSG_MAX_SIZE + 1) 0).actions =
      [DevAction.set_power_state SOF_DSP_PM_D0] ∧
    (sof_ipc_tx_message exPmEnv exIpcEnabled 1 []
      (SOF_IPC_MSG_MAX_SIZE + 1) 0).actions ≠ [] := by
  refine ⟨?_, ?_, ?_⟩ <;> decide

/-- Claim C8 (amended): an oversized payload or expected reply makes the
send return the no-buffer-space error with no transport write and no
channel-state change; the no-PM variant checks this before any device
interaction at all, while the power-managed variant performs the D0
power-state transition before the size check (and still performs no
transport write). -/
theorem c8_oversized_enobufs (env : PmTxEnv) (ipc : SofIpc) (header : Nat)
    (msg_data : List Nat) (msg_bytes reply_bytes : Nat)
    (hover : msg_bytes > SOF_IPC_MSG_MAX_SIZE ∨
      reply_bytes > SOF_IPC_MSG_MAX_SIZE) :
    ((sof_ipc_tx_message_no_pm env.tx ipc header msg_data msg_bytes
        reply_bytes).ret = -ENOBUFS ∧
     (sof_ipc_tx_message_no_pm env.tx ipc header msg_data msg_bytes
        reply_bytes).actions = [] ∧
     (sof_ipc_tx_message_no_pm env.tx ipc header msg_data msg_bytes
        reply_bytes).ipc = ipc) ∧
    (0 ≤ env.set_power_ret →
      (sof_ipc_tx_message env ipc header msg_data msg_bytes
        reply_bytes).ret = -ENOBUFS ∧
      (sof_ipc_tx_message env ipc header msg_data msg_bytes
        reply_bytes).actions = [DevAction.set_power_state SOF_DSP_PM_D0] ∧
      (sof_ipc_tx_message env ipc header msg_data msg_bytes
        reply_bytes).actions.filter DevAction.isSend = []) := by
  constructor
  · refine ⟨?_, ?_, ?_⟩ <;> simp [sof_ipc_tx_message_no_pm, hover]
  · intro hpm
    have hlt : ¬ env.set_power_ret < 0 := by omega
    refine ⟨?_, ?_, ?_⟩ <;>
      simp [sof_ipc_tx_message, hlt, sof_ipc_tx_message_no_pm, hover,
        DevAction.isSend]

/-- Witness for the amended C8 at a concrete oversized send. -/
theorem c8_oversized_enobufs_witness :
    (sof_ipc_tx_message_no_pm exTimeoutEnv exIpcEnabled 1 [] 385 0).ret =
      -ENOBUFS ∧
    (sof_ipc_tx_message exPmEnv exIpcEnabled 1 [] 385 0).actions =
      [DevAction.set_power_state SOF_DSP_PM_D0] := by
  obtain ⟨⟨h1, h2, h3⟩, h4⟩ :=
    c8_oversized_enobufs exPmEnv exIpcEnabled 1 [] 385 0 (by decide)
  obtain ⟨h5, h6, h7⟩ := h4 (by decide)
  exact ⟨h1, h6⟩

/-- Claim C10: a reply delivered while no command is pending is rejected
with the invalid-argument error, does not modify the pending-message
state and wakes no waiter; otherwise the completion flag is set and the
waiting sender is woken. -/
theorem c10_reply_handler (ipc : SofIpc) (msg_id : Nat) :
    (ipc.msg.ipc_complete = true →
      (snd_sof_ipc_reply ipc msg_id).ret = -EINVAL ∧
      (snd_sof_ipc_reply ipc msg_id).ipc = ipc ∧
      (snd_sof_ipc_reply ipc msg_id).woke = false) ∧
    (ipc.msg.ipc_complete = false →
      (snd_sof_ipc_reply ipc msg_id).ret = 0 ∧
      (snd_sof_ipc_reply ipc msg_id).woke = true ∧
      (snd_sof_ipc_reply ipc msg_id).ipc.msg =
        { ipc.msg with ipc_complete := true } ∧
      (snd_sof_ipc_reply ipc msg_id).ipc.disable_ipc_tx =
        ipc.disable_ipc_tx) := by
  constructor
  · intro h
    refine ⟨?_, ?_, ?_⟩ <;> simp [snd_sof_ipc_reply, h]
  · intro h
    refine ⟨?_, ?_, ?_, ?_⟩ <;> simp [snd_sof_ipc_reply, h]

/-- Witness for C10 on both branches at concrete channels. -/
theorem c10_reply_handler_witness :
    (snd_sof_ipc_reply exIpcDisabled 7).ret = -EINVAL ∧
    (snd_sof_ipc_reply { exIpcEnabled with
      msg := { exMsgSlot with ipc_complete := false } } 7).woke = true := by
  refine ⟨((c10_reply_handler exIpcDisabled 7).1 rfl).1, ?_⟩
  exact (((c10_reply_handler _ 7).2 rfl).2).1

/-! ## Unfolding lemmas for the specification-side lists -/

theorem specFreeList_cons_none (w : Widget) (rest : List Widget)
    (hp : w.priv = none) : specFreeList (w :: rest) = specFreeList rest := by
  simp [specFreeList, hp]

theorem specFreeList_cons_some (w : Widget) (rest : List Widget) (p : List Nat)
    (hp : w.priv = some p) :
    specFreeList (w :: rest) =
      { cmd := specFreeCmd w.id, id := w.comp_id } :: specFreeList rest := by
  simp [specFreeList, hp]

theorem specWidgetList_cons_none (w : Widget) (rest : List Widget)
    (hp : w.priv = none) :
    specWidgetList (w :: rest) = specWidgetList rest := by
  simp [specWidgetList, hp]

theorem specWidgetList_cons_some (w : Widget) (rest : List Widget)
    (p : List Nat) (hp : w.priv = some p) :
    specWidgetList (w :: rest) = specWidgetKindMsg w :: specWidgetList rest := by
  simp [specWidgetList, hp]

theorem specRouteList_cons_none (rt : Route) (rest : List Route)
    (hp : rt.priv = none) : specRouteList (rt :: rest) = specRouteList rest := by
  simp [specRouteList, hp]

theorem specRouteList_cons_some (rt : Route) (rest : List Route) (p : List Nat)
    (hp : rt.priv = some p) :
    specRouteList (rt :: rest) =
      RMsg.route_connect rt.sink rt.source p :: specRouteList rest := by
  simp [specRouteList, hp]

theorem specDaiList_cons_none (d : SofDai) (rest : List SofDai)
    (hp : d.dai_config = none) : specDaiList (d :: rest) = specDaiList rest := by
  simp [specDaiList, hp]

theorem specDaiList_cons_some (d : SofDai) (rest : List SofDai)
    (cfg : DaiConfig) (hp : d.dai_config = some cfg) :
    specDaiList (d :: rest) =
      RMsg.dai_config d.name (specInvalidate cfg) :: specDaiList rest := by
  simp [specDaiList, hp]

/-! ## Destroy pass lemmas -/

theorem destroy_widgets_ok (tx : FreeMsg → Int) :
    ∀ (ws : List Widget) (r0 : Int), 0 ≤ r0 →
      (∀ m ∈ specFreeList ws, 0 ≤ tx m) →
      (destroy_widgets tx r0 ws).trace = specFreeList ws ∧
      0 ≤ (destroy_widgets tx r0 ws).ret := by
  intro ws
  induction ws with
  | nil => intro r0 h0 h; exact ⟨rfl, h0⟩
  | cons w rest ih =>
    intro r0 h0 h
    cases hp : w.priv with
    | none =>
      rw [specFreeList_cons_none w rest hp] at h
      rw [specFreeList_cons_none w rest hp]
      simp only [destroy_widgets, hp]
      exact ih r0 h0 h
    | some p =>
      rw [specFreeList_cons_some w rest p hp] at h
      rw [specFreeList_cons_some w rest p hp]
      simp only [destroy_widgets, hp, ipc_free_msg_spec]
      have hm : 0 ≤ tx { cmd := specFreeCmd w.id, id := w.comp_id } :=
        h _ (List.mem_cons_self _ _)
      have hrest : ∀ m ∈ specFreeList rest, 0 ≤ tx m :=
        fun m hm2 => h m (List.mem_cons_of_mem _ hm2)
      obtain ⟨ht, hr⟩ := ih _ hm hrest
      rw [if_neg (by omega)]
      exact ⟨by simp [ht], hr⟩

theorem destroy_widgets_stop (tx : FreeMsg → Int) :
    ∀ (ws : List Widget) (r0 : Int) (ms1 : List FreeMsg) (m : FreeMsg)
      (ms2 : List FreeMsg),
      specFreeList ws = ms1 ++ m :: ms2 →
      (∀ x ∈ ms1, 0 ≤ tx x) → tx m < 0 →
      (destroy_widgets tx r0 ws).trace = ms1 ++ [m] ∧
      (destroy_widgets tx r0 ws).ret = tx m := by
  intro ws
  induction ws with
  | nil =>
    intro r0 ms1 m ms2 hs h1 hm
    exact absurd hs (by simp [specFreeList])
  | cons w rest ih =>
    intro r0 ms1 m ms2 hs h1 hm
    cases hp : w.priv with
    | none =>
      rw [specFreeList_cons_none w rest hp] at hs
      simp only [destroy_widgets, hp]
      exact ih r0 ms1 m ms2 hs h1 hm
    | some p =>
      rw [specFreeList_cons_some w rest p hp] at hs
      cases ms1 with
      | nil =>
        simp only [List.nil_append] at hs
        obtain ⟨hm1, _⟩ := List.cons.inj hs
        simp only [destroy_widgets, hp, ipc_free_msg_spec]
        rw [hm1, if_pos hm]
        exact ⟨rfl, rfl⟩
      | cons m1 ms1 =>
        simp only [List.cons_append] at hs
        obtain ⟨hm1, hs2⟩ := List.cons.inj hs
        have hx1 : 0 ≤ tx m1 := h1 m1 (List.mem_cons_self _ _)
        have hx : ∀ x ∈ ms1, 0 ≤ tx x :=
          fun x hx2 => h1 x (List.mem_cons_of_mem _ hx2)
        obtain ⟨ht, hr⟩ := ih (tx m1) ms1 m ms2 hs2 hx hm
        simp only [destroy_widgets, hp, ipc_free_msg_spec]
        rw [hm1, if_neg (by omega)]
        exact ⟨by simp [ht], by simp [hr]⟩

/-- Claim C2: the destroy pass visits components in reverse creation
order, skips every component with no retained construction payload,
selects the free operation code by widget kind (pipeline-root to
pipeline-free, inter-buffer to buffer-free, all others to the generic
component-free), and the first failing free command aborts the pass with
its error returned. -/
theorem c2_destroy_pass (tx : FreeMsg → Int) (a : AudioDev) :
    ((∀ m ∈ specDestroyMsgs a, 0 ≤ tx m) →
      (sof_destroy_pipelines tx a).trace = specDestroyMsgs a) ∧
    (∀ (ms1 : List FreeMsg) (m : FreeMsg) (ms2 : List FreeMsg),
      specDestroyMsgs a = ms1 ++ m :: ms2 →
      (∀ x ∈ ms1, 0 ≤ tx x) → tx m < 0 →
      (sof_destroy_pipelines tx a).trace = ms1 ++ [m] ∧
      (sof_destroy_pipelines tx a).ret = tx m) := by
  constructor
  · intro h
    exact (destroy_widgets_ok tx a.widget_list.reverse 0 (by norm_num) h).1
  · intro ms1 m ms2 hs h1 hm
    exact destroy_widgets_stop tx a.widget_list.reverse 0 ms1 m ms2 hs h1 hm

/-- Witness for C2: a concrete widget list destroyed with an
all-succeeding oracle and with an oracle failing on the buffer widget. -/
theorem c2_destroy_pass_witness :
    (sof_destroy_pipelines (fun _ => 0) exDevWidgets).trace =
      [{ cmd := FreeKind.comp_free, id := 4 },
       { cmd := FreeKind.buffer_free, id := 2 },
       { cmd := FreeKind.pipe_free, id := 1 }] ∧
    (sof_destroy_pipelines exFreeTx exDevWidgets).trace =
      [{ cmd := FreeKind.comp_free, id := 4 },
       { cmd := FreeKind.buffer_free, id := 2 }] ∧
    (sof_destroy_pipelines exFreeTx exDevWidgets).ret = -7 := by
  have h1 := (c2_destroy_pass (fun _ => 0) exDevWidgets).1 fun m _ => le_refl 0
  have h2 := (c2_destroy_pass exFreeTx exDevWidgets).2
    [{ cmd := FreeKind.comp_free, id := 4 }]
    { cmd := FreeKind.buffer_free, id := 2 }
    [{ cmd := FreeKind.pipe_free, id := 1 }]
    (by decide) (by decide) (by decide)
  refine ⟨by rw [h1]; decide, by rw [h2.1]; decide, by rw [h2.2]; decide⟩

/-! ## Restore phase lemmas -/

theorem restore_widgets_ok (tx : RMsg → Int) :
    ∀ (ws : List Widget) (r0 : Int), 0 ≤ r0 →
      (∀ m ∈ specWidgetList ws, 0 ≤ tx m) →
      (restore_widgets tx r0 ws).trace = specWidgetList ws ∧
      0 ≤ (restore_widgets tx r0 ws).ret := by
  intro ws
  induction ws with
  | nil => intro r0 h0 h; exact ⟨rfl, h0⟩
  | cons w rest ih =>
    intro r0 h0 h
    cases hp : w.priv with
    | none =>
      rw [specWidgetList_cons_none w rest hp] at h
      rw [specWidgetList_cons_none w rest hp]
      simp only [restore_widgets, hp]
      exact ih r0 h0 h
    | some p =>
      rw [specWidgetList_cons_some w rest p hp] at h
      rw [specWidgetList_cons_some w rest p hp]
      simp only [restore_widgets, hp, restore_widget_msg_spec]
      have hm : 0 ≤ tx (specWidgetKindMsg w) := h _ (List.mem_cons_self _ _)
      have hrest : ∀ m ∈ specWidgetList rest, 0 ≤ tx m :=
        fun m hm2 => h m (List.mem_cons_of_mem _ hm2)
      obtain ⟨ht, hr⟩ := ih _ hm hrest
      rw [if_neg (by omega)]
      exact ⟨by simp [ht], hr⟩

theorem restore_widgets_stop (tx : RMsg → Int) :
    ∀ (ws : List Widget) (r0 : Int) (ms1 : List RMsg) (m : RMsg)
      (ms2 : List RMsg),
      specWidgetList ws = ms1 ++ m :: ms2 →
      (∀ x ∈ ms1, 0 ≤ tx x) → tx m < 0 →
      (restore_widgets tx r0 ws).trace = ms1 ++ [m] ∧
      (restore_widgets tx r0 ws).ret = tx m := by
  intro ws
  induction ws with
  | nil =>
    intro r0 ms1 m ms2 hs h1 hm
    exact absurd hs (by simp [specWidgetList])
  | cons w rest ih =>
    intro r0 ms1 m ms2 hs h1 hm
    cases hp : w.priv with
    | none =>
      rw [specWidgetList_cons_none w rest hp] at hs
      simp only [restore_widgets, hp]
      exact ih r0 ms1 m ms2 hs h1 hm
    | some p =>
      rw [specWidgetList_cons_some w rest p hp] at hs
      cases ms1 with
      | nil =>
        simp only [List.nil_append] at hs
        obtain ⟨hm1, _⟩ := List.cons.inj hs
        simp only [restore_widgets, hp, restore_widget_msg_spec]
        rw [hm1, if_pos hm]
        exact ⟨rfl, rfl⟩
      | cons m1 ms1 =>
        simp only [List.cons_append] at hs
        obtain ⟨hm1, hs2⟩ := List.cons.inj hs
        have hx : ∀ x ∈ ms1, 0 ≤ tx x :=
          fun x hx2 => h1 x (List.mem_cons_of_mem _ hx2)
        have hx1 : 0 ≤ tx m1 := h1 m1 (List.mem_cons_self _ _)
        obtain ⟨ht, hr⟩ := ih (tx m1) ms1 m ms2 hs2 hx hm
        simp only [restore_widgets, hp, restore_widget_msg_spec]
        rw [hm1, if_neg (by omega)]
        exact ⟨by simp [ht], by simp [hr]⟩

theorem restore_routes_ok (tx : RMsg → Int) :
    ∀ (rs : List Route) (r0 : Int), 0 ≤ r0 →
      (∀ m ∈ specRouteList rs, 0 ≤ tx m) →
      (restore_routes tx r0 rs).trace = specRouteList rs ∧
      0 ≤ (restore_routes tx r0 rs).ret := by
  intro rs
  induction rs with
  | nil => intro r0 h0 h; exact ⟨rfl, h0⟩
  | cons rt rest ih =>
    intro r0 h0 h
    cases hp : rt.priv with
    | none =>
      rw [specRouteList_cons_none rt rest hp] at h
      rw [specRouteList_cons_none rt rest hp]
      simp only [restore_routes, hp]
      exact ih r0 h0 h
    | some p =>
      rw [specRouteList_cons_some rt rest p hp] at h
      rw [specRouteList_cons_some rt rest p hp]
      simp only [restore_routes, hp]
      have hm : 0 ≤ tx (RMsg.route_connect rt.sink rt.source p) :=
        h _ (List.mem_cons_self _ _)
      have hrest : ∀ m ∈ specRouteList rest, 0 ≤ tx m :=
        fun m hm2 => h m (List.mem_cons_of_mem _ hm2)
      obtain ⟨ht, hr⟩ := ih _ hm hrest
      rw [if_neg (by omega)]
      exact ⟨by simp [ht], hr⟩

theorem restore_routes_stop (tx : RMsg → Int) :
    ∀ (rs : List Route) (r0 : Int) (ms1 : List RMsg) (m : RMsg)
      (ms2 : List RMsg),
      specRouteList rs = ms1 ++ m :: ms2 →
      (∀ x ∈ ms1, 0 ≤ tx x) → tx m < 0 →
      (restore_routes tx r0 rs).trace = ms1 ++ [m] ∧
      (restore_routes tx r0 rs).ret = tx m := by
  intro rs
  induction rs with
  | nil =>
    intro r0 ms1 m ms2 hs h1 hm
    exact absurd hs (by simp [specRouteList])
  | cons rt rest ih =>
    intro r0 ms1 m ms2 hs h1 hm
    cases hp : rt.priv with
    | none =>
      rw [specRouteList_cons_none rt rest hp] at hs
      simp only [restore_routes, hp]
      exact ih r0 ms1 m ms2 hs h1 hm
    | some p =>
      rw [specRouteList_cons_some rt rest p hp] at hs
      cases ms1 with
      | nil =>
        simp only [List.nil_append] at hs
        obtain ⟨hm1, _⟩ := List.cons.inj hs
        simp only [restore_routes, hp]
        rw [hm1, if_pos hm]
        exact ⟨rfl, rfl⟩
      | cons m1 ms1 =>
        simp only [List.cons_append] at hs
        obtain ⟨hm1, hs2⟩ := List.cons.inj hs
        have hx : ∀ x ∈ ms1, 0 ≤ tx x :=
          fun x hx2 => h1 x (List.mem_cons_of_mem _ hx2)
        have hx1 : 0 ≤ tx m1 := h1 m1 (List.mem_cons_self _ _)
        obtain ⟨ht, hr⟩ := ih (tx m1) ms1 m ms2 hs2 hx hm
        simp only [restore_routes, hp]
        rw [hm1, if_neg (by omega)]
        exact ⟨by simp [ht], by simp [hr]⟩

theorem restore_dais_ok (tx : RMsg → Int) :
    ∀ (ds : List SofDai) (r0 : Int), 0 ≤ r0 →
      (∀ m ∈ specDaiList ds, 0 ≤ tx m) →
      (restore_dais tx r0 ds).trace = specDaiList ds ∧
      0 ≤ (restore_dais tx r0 ds).ret := by
  intro ds
  induction ds with
  | nil => intro r0 h0 h; exact ⟨rfl, h0⟩
  | cons d rest ih =>
    intro r0 h0 h
    cases hp : d.dai_config with
    | none =>
      rw [specDaiList_cons_none d rest hp] at h
      rw [specDaiList_cons_none d rest hp]
      simp only [restore_dais, hp]
      obtain ⟨ht, hr⟩ := ih r0 h0 h
      exact ⟨by simp [ht], hr⟩
    | some cfg =>
      rw [specDaiList_cons_some d rest cfg hp] at h
      rw [specDaiList_cons_some d rest cfg hp]
      simp only [restore_dais, hp, invalidate_hda_chan_spec]
      have hm : 0 ≤ tx (RMsg.dai_config d.name (specInvalidate cfg)) :=
        h _ (List.mem_cons_self _ _)
      have hrest : ∀ m ∈ specDaiList rest, 0 ≤ tx m :=
        fun m hm2 => h m (List.mem_cons_of_mem _ hm2)
      obtain ⟨ht, hr⟩ := ih _ hm hrest
      rw [if_neg (by omega)]
      exact ⟨by simp [ht], hr⟩

/-! ## Kcontrol restore lemmas -/

theorem specKctlMsgs_cons (c : SofControl) (rest : List SofControl) :
    specKctlMsgs (c :: rest) = specKctlMsg c :: specKctlMsgs rest := by
  simp [specKctlMsgs]

theorem sof_restore_kcontrols_ok (tx : KctlMsg → Int) :
    ∀ (l : List SofControl),
      (∀ m ∈ specKctlMsgs l, 0 ≤ tx m) →
      (sof_restore_kcontrols tx l).trace = specKctlMsgs l ∧
      (sof_restore_kcontrols tx l).ret = 0 ∧
      (sof_restore_kcontrols tx l).controls =
        l.map fun c => { c with readback_offset := 0 } := by
  intro l
  induction l with
  | nil => intro h; exact ⟨rfl, rfl, rfl⟩
  | cons c rest ih =>
    intro h
    rw [specKctlMsgs_cons] at h
    have hm : 0 ≤ tx (specKctlMsg c) := h _ (List.mem_cons_self _ _)
    have hrest : ∀ m ∈ specKctlMsgs rest, 0 ≤ tx m :=
      fun m hm2 => h m (List.mem_cons_of_mem _ hm2)
    obtain ⟨ht, hr, hc⟩ := ih hrest
    rw [specKctlMsgs_cons]
    simp only [sof_restore_kcontrols, kctl_restore_msg_spec]
    rw [if_neg (by omega)]
    exact ⟨by simp [ht], by simp [hr], by simp [hc]⟩

theorem sof_restore_kcontrols_stop (tx : KctlMsg → Int) :
    ∀ (l : List SofControl) (ms1 : List KctlMsg) (m : KctlMsg)
      (ms2 : List KctlMsg),
      specKctlMsgs l = ms1 ++ m :: ms2 →
      (∀ x ∈ ms1, 0 ≤ tx x) → tx m < 0 →
      (sof_restore_kcontrols tx l).trace = ms1 ++ [m] ∧
      (sof_restore_kcontrols tx l).ret = tx m ∧
      (sof_restore_kcontrols tx l).controls =
        ((l.take (ms1.length + 1)).map fun c =>
          { c with readback_offset := 0 }) ++ l.drop (ms1.length + 1) := by
  intro l
  induction l with
  | nil =>
    intro ms1 m ms2 hs h1 hm
    exact absurd hs (by simp [specKctlMsgs])
  | cons c rest ih =>
    intro ms1 m ms2 hs h1 hm
    rw [specKctlMsgs_cons] at hs
    cases ms1 with
    | nil =>
      simp only [List.nil_append] at hs
      obtain ⟨hm1, _⟩ := List.cons.inj hs
      simp only [sof_restore_kcontrols, kctl_restore_msg_spec]
      rw [hm1, if_pos hm]
      refine ⟨rfl, rfl, ?_⟩
      simp
    | cons m1 ms1 =>
      simp only [List.cons_append] at hs
      obtain ⟨hm1, hs2⟩ := List.cons.inj hs
      have hx : ∀ x ∈ ms1, 0 ≤ tx x :=
        fun x hx2 => h1 x (List.mem_cons_of_mem _ hx2)
      have hx1 : 0 ≤ tx m1 := h1 m1 (List.mem_cons_self _ _)
      obtain ⟨ht, hr, hc⟩ := ih ms1 m ms2 hs2 hx hm
      simp only [sof_restore_kcontrols, kctl_restore_msg_spec]
      rw [hm1, if_neg (by omega)]
      refine ⟨by simp [ht], by simp [hr], ?_⟩
      simp only [List.length_cons]
      rw [List.take_succ_cons, List.drop_succ_cons]
      simp [hc]

/-- Claim C9: the control-shadow restore visits every tracked control in
list order, resets the binary-readback cursor of each visited control to
zero before replaying its value with the operation pair matching its
kind (volume, enum and switch use the inline set-value pair; opaque
binary uses the set-data pair), and the pass aborts returning the first
failure error; on abort the failing control has already had its cursor
reset while unvisited controls are untouched. -/
theorem c9_kcontrol_restore (tx : KctlMsg → Int) (l : List SofControl) :
    ((∀ m ∈ specKctlMsgs l, 0 ≤ tx m) →
      (sof_restore_kcontrols tx l).trace = specKctlMsgs l ∧
      (sof_restore_kcontrols tx l).ret = 0 ∧
      (sof_restore_kcontrols tx l).controls =
        l.map fun c => { c with readback_offset := 0 }) ∧
    (∀ (ms1 : List KctlMsg) (m : KctlMsg) (ms2 : List KctlMsg),
      specKctlMsgs l = ms1 ++ m :: ms2 →
      (∀ x ∈ ms1, 0 ≤ tx x) → tx m < 0 →
      (sof_restore_kcontrols tx l).trace = ms1 ++ [m] ∧
      (sof_restore_kcontrols tx l).ret = tx m ∧
      (sof_restore_kcontrols tx l).controls =
        ((l.take (ms1.length + 1)).map fun c =>
          { c with readback_offset := 0 }) ++ l.drop (ms1.length + 1)) := by
  exact ⟨sof_restore_kcontrols_ok tx l,
    fun ms1 m ms2 hs h1 hm => sof_restore_kcontrols_stop tx l ms1 m ms2 hs h1 hm⟩

/-- Witness for C9: three concrete controls restored with an
all-succeeding oracle and with an oracle failing on the binary control. -/
theorem c9_kcontrol_restore_witness :
    (sof_restore_kcontrols (fun _ => 0) exControls).trace =
      [{ comp_id := 21, ipc_cmd := CompCmdKind.set_value
         ctrl_type := SofCtrlType.value_chan_set, cmd := CtrlCmd.volume },
       { comp_id := 22, ipc_cmd := CompCmdKind.set_data
         ctrl_type := SofCtrlType.data_set, cmd := CtrlCmd.binary },
       { comp_id := 23, ipc_cmd := CompCmdKind.set_value
         ctrl_type := SofCtrlType.value_chan_set, cmd := CtrlCmd.switch_ctl }] ∧
    (sof_restore_kcontrols (fun _ => 0) exControls).controls =
      [{ comp_id := 21, cmd := CtrlCmd.volume, readback_offset := 0 },
       { comp_id := 22, cmd := CtrlCmd.binary, readback_offset := 0 },
       { comp_id := 23, cmd := CtrlCmd.switch_ctl, readback_offset := 0 }] ∧
    (sof_restore_kcontrols exKctlTx exControls).ret = -9 ∧
    (sof_restore_kcontrols exKctlTx exControls).controls =
      [{ comp_id := 21, cmd := CtrlCmd.volume, readback_offset := 0 },
       { comp_id := 22, cmd := CtrlCmd.binary, readback_offset := 0 },
       { comp_id := 23, cmd := CtrlCmd.switch_ctl, readback_offset := 9 }] := by
  have h1 := (c9_kcontrol_restore (fun _ => 0) exControls).1 fun m _ => le_refl 0
  have h2 := (c9_kcontrol_restore exKctlTx exControls).2
    [{ comp_id := 21, ipc_cmd := CompCmdKind.set_value
       ctrl_type := SofCtrlType.value_chan_set, cmd := CtrlCmd.volume }]
    { comp_id := 22, ipc_cmd := CompCmdKind.set_data
      ctrl_type := SofCtrlType.data_set, cmd := CtrlCmd.binary }
    [{ comp_id := 23, ipc_cmd := CompCmdKind.set_value
       ctrl_type := SofCtrlType.value_chan_set, cmd := CtrlCmd.switch_ctl }]
    (by decide) (by decide) (by decide)
  refine ⟨by rw [h1.1]; decide, by rw [h1.2.2]; decide,
    by rw [h2.2.1]; decide, by rw [h2.2.2]; decide⟩

/-! ## Trace shape lemmas -/

theorem filter_eq_nil_of {α : Type} (p : α → Bool) :
    ∀ (l : List α), (∀ x ∈ l, p x = false) → l.filter p = [] := by
  intro l
  induction l with
  | nil => intro h; rfl
  | cons a l ih =>
    intro h
    have ha := h a (List.mem_cons_self _ _)
    rw [List.filter_cons, ha]
    simp only [Bool.false_eq_true, if_false]
    exact ih fun x hx => h x (List.mem_cons_of_mem _ hx)

theorem filter_eq_self_of {α : Type} (p : α → Bool) :
    ∀ (l : List α), (∀ x ∈ l, p x = true) → l.filter p = l := by
  intro l
  induction l with
  | nil => intro h; rfl
  | cons a l ih =>
    intro h
    have ha := h a (List.mem_cons_self _ _)
    rw [List.filter_cons, ha]
    simp only [if_true]
    rw [ih fun x hx => h x (List.mem_cons_of_mem _ hx)]

theorem specWidgetList_shape (ws : List Widget) :
    ∀ x ∈ specWidgetList ws,
      RMsg.isDai x = false ∧ RMsg.isComplete x = false ∧
      RMsg.isKctl x = false := by
  intro x hx
  obtain ⟨w, hw, hfw⟩ := List.mem_filterMap.mp hx
  cases hpv : w.priv with
  | none => rw [hpv] at hfw; exact absurd hfw (by simp)
  | some p =>
    rw [hpv] at hfw
    simp only [Option.map_some', Option.some.injEq] at hfw
    subst hfw
    cases hid : w.id <;>
      simp [specWidgetKindMsg, hid, RMsg.isDai, RMsg.isComplete, RMsg.isKctl]

theorem specRouteList_shape (rs : List Route) :
    ∀ x ∈ specRouteList rs,
      RMsg.isDai x = false ∧ RMsg.isComplete x = false ∧
      RMsg.isKctl x = false := by
  intro x hx
  obtain ⟨rt, hr, hfr⟩ := List.mem_filterMap.mp hx
  cases hpv : rt.priv with
  | none => rw [hpv] at hfr; exact absurd hfr (by simp)
  | some p =>
    rw [hpv] at hfr
    simp only [Option.map_some', Option.some.injEq] at hfr
    subst hfr
    simp [RMsg.isDai, RMsg.isComplete, RMsg.isKctl]

theorem specDaiList_shape (ds : List SofDai) :
    ∀ x ∈ specDaiList ds, RMsg.isDai x = true := by
  intro x hx
  obtain ⟨d, hd, hfd⟩ := List.mem_filterMap.mp hx
  cases hpv : d.dai_config with
  | none => rw [hpv] at hfd; exact absurd hfd (by simp)
  | some cfg =>
    rw [hpv] at hfd
    simp only [Option.map_some', Option.some.injEq] at hfd
    subst hfd
    simp [RMsg.isDai]

theorem complete_pipelines_shape (cfn : Widget → Int) :
    ∀ (ws : List Widget), ∀ x ∈ (complete_pipelines cfn ws).2,
      RMsg.isDai x = false ∧ RMsg.isKctl x = false := by
  intro ws
  induction ws with
  | nil => intro x hx; exact absurd hx (by simp [complete_pipelines])
  | cons w rest ih =>
    intro x hx
    cases hid : w.id <;> simp only [complete_pipelines, hid] at hx
    case scheduler =>
      rcases List.mem_cons.mp hx with rfl | hx2
      · exact ⟨rfl, rfl⟩
      · exact ih x hx2
    all_goals exact ih x hx

theorem kctl_map_shape (l : List KctlMsg) :
    ∀ x ∈ l.map RMsg.kctl,
      RMsg.isDai x = false ∧ RMsg.isComplete x = false := by
  intro x hx
  obtain ⟨k, hk, hfk⟩ := List.mem_map.mp hx
  subst hfk
  exact ⟨rfl, rfl⟩

/-! ## Restore pass claims -/

/-- Counterexample to claim C1 as stated: restoring a device with two
DAI links created in order ssp-a then ssp-b issues the DAI configuration
replay commands in order ssp-b then ssp-a, the reverse of the forward
creation order the claim asserts. -/
theorem c1_counterexample :
    (sof_restore_pipelines (fun _ => 0) (fun _ => 0) exDevDai).trace =
      [RMsg.dai_config "ssp-b"
        { typ := DaiType.other, cmd := 11, size := 4, link_dma_ch := 8 },
       RMsg.dai_config "ssp-a"
        { typ := DaiType.other, cmd := 10, size := 4, link_dma_ch := 7 }] ∧
    specDaiMsgsFwd exDevDai =
      [RMsg.dai_config "ssp-a"
        { typ := DaiType.other, cmd := 10, size := 4, link_dma_ch := 7 },
       RMsg.dai_config "ssp-b"
        { typ := DaiType.other, cmd := 11, size := 4, link_dma_ch := 8 }] ∧
    (sof_restore_pipelines (fun _ => 0) (fun _ => 0) exDevDai).trace ≠
      specDaiMsgsFwd exDevDai := by
  refine ⟨?_, ?_, ?_⟩ <;> decide

/-- Claim C1 (amended): during a restore pass the DAI-link configuration
replay commands are issued in reverse creation order, the same reverse
traversal used for components and routes, not in the forward list
order. -/
theorem c1_dai_restore_order (tx : RMsg → Int) (cfn : Widget → Int)
    (a : AudioDev)
    (hw : ∀ m ∈ specWidgetMsgs a, 0 ≤ tx m)
    (hr : ∀ m ∈ specRouteMsgs a, 0 ≤ tx m)
    (hd : ∀ m ∈ specDaiMsgsRev a, 0 ≤ tx m) :
    (sof_restore_pipelines tx cfn a).trace.filter RMsg.isDai =
      specDaiMsgsRev a := by
  obtain ⟨hwt, hwr⟩ :=
    restore_widgets_ok tx a.widget_list.reverse 0 (by norm_num) hw
  obtain ⟨hrt, hrr⟩ :=
    restore_routes_ok tx a.route_list.reverse 0 (by norm_num) hr
  obtain ⟨hdt, hdr⟩ :=
    restore_dais_ok tx a.dai_list.reverse 0 (by norm_num) hd
  simp only [sof_restore_pipelines]
  rw [if_neg (by omega), if_neg (by omega), if_neg (by omega)]
  simp only [List.filter_append]
  rw [hwt, hrt, hdt]
  rw [filter_eq_nil_of _ _ fun x hx => (specWidgetList_shape _ x hx).1]
  rw [filter_eq_nil_of _ _ fun x hx => (specRouteList_shape _ x hx).1]
  rw [filter_eq_self_of _ _ fun x hx => specDaiList_shape _ x hx]
  rw [filter_eq_nil_of _ _ fun x hx => (complete_pipelines_shape cfn _ x hx).1]
  rw [filter_eq_nil_of _ _ fun x hx => (kctl_map_shape _ x hx).1]
  simp [specDaiMsgsRev]

/-- Witness for the amended C1 at the two-link device. -/
theorem c1_dai_restore_order_witness :
    (sof_restore_pipelines (fun _ => 0) (fun _ => 0) exDevDai).trace.filter
      RMsg.isDai = specDaiMsgsRev exDevDai := by
  exact c1_dai_restore_order (fun _ => 0) (fun _ => 0) exDevDai
    (fun m _ => le_refl 0) (fun m _ => le_refl 0) (fun m _ => le_refl 0)

/-- Claim C7: when a route-replay command fails during a restore pass,
no later route replay and no subsequent step (DAI-link replay, pipeline
completion marking, control-shadow restore) is attempted, the device
model is left untouched, and the failing command status code is returned
unchanged. -/
theorem c7_route_failure (tx : RMsg → Int) (cfn : Widget → Int)
    (a : AudioDev) (ms1 : List RMsg) (m : RMsg) (ms2 : List RMsg)
    (hw : ∀ x ∈ specWidgetMsgs a, 0 ≤ tx x)
    (hs : specRouteMsgs a = ms1 ++ m :: ms2)
    (h1 : ∀ x ∈ ms1, 0 ≤ tx x) (hm : tx m < 0) :
    (sof_restore_pipelines tx cfn a).ret = tx m ∧
    (sof_restore_pipelines tx cfn a).trace =
      specWidgetMsgs a ++ (ms1 ++ [m]) ∧
    (sof_restore_pipelines tx cfn a).dev = a ∧
    (sof_restore_pipelines tx cfn a).trace.filter RMsg.isDai = [] ∧
    (sof_restore_pipelines tx cfn a).trace.filter RMsg.isComplete = [] ∧
    (sof_restore_pipelines tx cfn a).trace.filter RMsg.isKctl = [] := by
  have hs2 : specRouteList a.route_list.reverse = ms1 ++ m :: ms2 := hs
  obtain ⟨hwt, hwr⟩ :=
    restore_widgets_ok tx a.widget_list.reverse 0 (by norm_num) hw
  obtain ⟨hrt, hrr⟩ :=
    restore_routes_stop tx a.route_list.reverse 0 ms1 m ms2 hs2 h1 hm
  have hroute : ∀ x ∈ ms1 ++ [m], RMsg.isDai x = false ∧
      RMsg.isComplete x = false ∧ RMsg.isKctl x = false := by
    intro x hx
    apply specRouteList_shape a.route_list.reverse
    rw [hs2]
    rcases List.mem_append.mp hx with hx1 | hx2
    · exact List.mem_append.mpr (Or.inl hx1)
    · rw [List.mem_singleton.mp hx2]
      exact List.mem_append.mpr (Or.inr (List.mem_cons_self _ _))
  simp only [sof_restore_pipelines]
  rw [if_neg (by omega), if_pos (by omega)]
  refine ⟨by simp [hrr], by simp [hwt, hrt, specWidgetMsgs], rfl, ?_, ?_, ?_⟩
  · simp only [List.filter_append]
    rw [hwt, hrt,
      filter_eq_nil_of _ _ fun x hx => (specWidgetList_shape _ x hx).1,
      filter_eq_nil_of _ _ fun x hx => (hroute x hx).1]
    rfl
  · simp only [List.filter_append]
    rw [hwt, hrt,
      filter_eq_nil_of _ _ fun x hx => (specWidgetList_shape _ x hx).2.1,
      filter_eq_nil_of _ _ fun x hx => (hroute x hx).2.1]
    rfl
  · simp only [List.filter_append]
    rw [hwt, hrt,
      filter_eq_nil_of _ _ fun x hx => (specWidgetList_shape _ x hx).2.2,
      filter_eq_nil_of _ _ fun x hx => (hroute x hx).2.2]
    rfl

/-- Witness for C7 at a concrete device whose second of three route
replays fails. -/
theorem c7_route_failure_witness :
    (sof_restore_pipelines exRouteTx (fun _ => 0) exDevRoutes).ret = -17 ∧
    (sof_restore_pipelines exRouteTx (fun _ => 0) exDevRoutes).trace =
      [RMsg.widget_generic 1, RMsg.route_connect "s3" "p3" [3],
       RMsg.route_connect "s2" "p2" [2]] ∧
    (sof_restore_pipelines exRouteTx (fun _ => 0) exDevRoutes).dev =
      exDevRoutes := by
  have h := c7_route_failure exRouteTx (fun _ => 0) exDevRoutes
    [RMsg.route_connect "s3" "p3" [3]]
    (RMsg.route_connect "s2" "p2" [2])
    [RMsg.route_connect "s1" "p1" [1]]
    (by decide) (by decide) (by decide) (by decide)
  refine ⟨by rw [h.1]; decide, by rw [h.2.1]; decide, h.2.2.1⟩

/-! ## Ceiling-division lemmas -/

theorem div_round_up_zero (C : Nat) (hC : 0 < C) :
    ∀ mb, DIV_ROUND_UP mb C = 0 ↔ mb = 0 := by
  intro mb
  unfold DIV_ROUND_UP
  rw [Nat.div_eq_zero_iff hC]
  omega

theorem div_round_up_succ (mb C : Nat) (hC : 0 < C) (h : C ≤ mb) :
    DIV_ROUND_UP mb C = DIV_ROUND_UP (mb - C) C + 1 := by
  unfold DIV_ROUND_UP
  have h1 : mb + C - 1 = mb - C + C - 1 + C := by omega
  rw [h1, Nat.add_div_right _ hC]

theorem div_round_up_one (mb C : Nat) (hC : 0 < C) (h1 : 0 < mb)
    (h2 : mb ≤ C) : DIV_ROUND_UP mb C = 1 := by
  unfold DIV_ROUND_UP
  apply Nat.div_eq_of_lt_le <;> omega

/-! ## Chunk loop characterization -/

theorem ctrl_chunk_loop_ok (tx : ChunkMsg → Int) (rx : Nat → List Nat)
    (send : Bool) (hdr C : Nat) (src : List Nat) (hC : 0 < C)
    (htx : ∀ m, 0 ≤ tx m) :
    ∀ (n i mb off : Nat) (dst : List Nat) (e0 : Int),
      n = DIV_ROUND_UP mb C → 0 ≤ e0 →
      (ctrl_chunk_loop tx rx send hdr C src n i mb off dst e0).chunks =
        (List.range n).map (fun j =>
          chunk_msg send hdr src (i + j) (mb - C * j) (off + C * j) C) ∧
      0 ≤ (ctrl_chunk_loop tx rx send hdr C src n i mb off dst e0).err := by
  intro n
  induction n with
  | zero =>
    intro i mb off dst e0 hn he
    exact ⟨by simp [ctrl_chunk_loop], by simpa [ctrl_chunk_loop] using he⟩
  | succ n ih =>
    intro i mb off dst e0 hn he
    have hmb : 0 < mb := by
      by_contra hc
      have h0 : mb = 0 := by omega
      rw [h0, (div_round_up_zero C hC 0).mpr rfl] at hn
      omega
    have hn' : n = DIV_ROUND_UP (mb - min mb C) C := by
      rcases le_or_lt C mb with hcm | hcm
      · rw [min_eq_right hcm]
        rw [div_round_up_succ mb C hC hcm] at hn
        omega
      · have h1 : DIV_ROUND_UP mb C = 1 :=
          div_round_up_one mb C hC hmb (le_of_lt hcm)
        have h2 : mb - min mb C = 0 := by omega
        rw [h2, (div_round_up_zero C hC 0).mpr rfl]
        omega
    simp only [ctrl_chunk_loop]
    rw [if_neg (not_lt.mpr (htx _))]
    obtain ⟨ht, hr⟩ := ih (i + 1) (mb - min mb C) (off + C)
      (if send then dst else listWrite dst off ((rx i).take (min mb C)))
      (tx (chunk_msg send hdr src i mb off C)) hn'
      (htx (chunk_msg send hdr src i mb off C))
    constructor
    · simp only []
      rw [ht, List.range_succ_eq_map, List.map_cons, List.map_map]
      congr 1
      have hfe : (fun j => chunk_msg send hdr src (i + 1 + j)
          (mb - min mb C - C * j) (off + C + C * j) C) =
          (fun j => chunk_msg send hdr src (i + j) (mb - C * j)
            (off + C * j) C) ∘ Nat.succ := by
        funext j
        simp only [Function.comp_apply, Nat.succ_eq_add_one]
        have e1 : i + 1 + j = i + (j + 1) := by omega
        have e2 : mb - min mb C - C * j = mb - C * (j + 1) := by
          simp only [Nat.mul_succ]
          omega
        have e3 : off + C + C * j = off + C * (j + 1) := by
          simp only [Nat.mul_succ]
          omega
        rw [e1, e2, e3]
      rw [hfe]
    · simp only []
      exact hr

/-- Concatenating the chunk slices of the source buffer, in index order,
reproduces the transferred region of the buffer. -/
theorem chunks_take_join (C : Nat) (hC : 0 < C) (src : List Nat) :
    ∀ (n mb off : Nat), n = DIV_ROUND_UP mb C →
      ((List.range n).map fun j =>
        (src.drop (off + C * j)).take (min (mb - C * j) C)).flatten =
        (src.drop off).take mb := by
  intro n
  induction n with
  | zero =>
    intro mb off hn
    have h0 : mb = 0 := (div_round_up_zero C hC mb).mp hn.symm
    rw [h0]
    simp
  | succ n ih =>
    intro mb off hn
    have hmb : 0 < mb := by
      by_contra hc
      have h0 : mb = 0 := by omega
      rw [h0, (div_round_up_zero C hC 0).mpr rfl] at hn
      omega
    have hn' : n = DIV_ROUND_UP (mb - min mb C) C := by
      rcases le_or_lt C mb with hcm | hcm
      · rw [min_eq_right hcm]
        rw [div_round_up_succ mb C hC hcm] at hn
        omega
      · have h1 : DIV_ROUND_UP mb C = 1 :=
          div_round_up_one mb C hC hmb (le_of_lt hcm)
        have h2 : mb - min mb C = 0 := by omega
        rw [h2, (div_round_up_zero C hC 0).mpr rfl]
        omega
    rw [List.range_succ_eq_map, List.map_cons, List.map_map, List.flatten_cons]
    have hfe : ((fun j => (src.drop (off + C * j)).take (min (mb - C * j) C))
        ∘ Nat.succ) =
        (fun j => (src.drop (off + C + C * j)).take
          (min (mb - min mb C - C * j) C)) := by
      funext j
      simp only [Function.comp_apply, Nat.succ_eq_add_one]
      have e2 : mb - C * (j + 1) = mb - min mb C - C * j := by
        simp only [Nat.mul_succ]
        omega
      have e3 : off + C * (j + 1) = off + C + C * j := by
        simp only [Nat.mul_succ]
        omega
      rw [e2, e3]
    rw [hfe, ih (mb - min mb C) (off + C) hn']
    simp only [Nat.mul_zero, Nat.add_zero, Nat.sub_zero]
    rcases le_or_lt C mb with hcm | hcm
    · rw [min_eq_right hcm]
      have hsplit : mb = C + (mb - C) := by omega
      conv_rhs => rw [hsplit]
      rw [List.take_add]
      congr 1
      rw [List.drop_drop]
    · have h1 : min mb C = mb := min_eq_left (le_of_lt hcm)
      rw [h1]
      have h2 : mb - mb = 0 := by omega
      rw [h2]
      simp

theorem sof_get_ctrl_copy_params_fields (ct : SofCtrlType)
    (sparams : CtrlDataParams) :
    (sof_get_ctrl_copy_params ct sparams).msg_bytes = sparams.msg_bytes ∧
    (sof_get_ctrl_copy_params ct sparams).hdr_bytes = sparams.hdr_bytes ∧
    (sof_get_ctrl_copy_params ct sparams).pl_size =
      SOF_IPC_MSG_MAX_SIZE - sparams.hdr_bytes ∧
    (sof_get_ctrl_copy_params ct sparams).num_msg =
      DIV_ROUND_UP sparams.msg_bytes
        (SOF_IPC_MSG_MAX_SIZE - sparams.hdr_bytes) := by
  cases ct <;> simp [sof_get_ctrl_copy_params]

/-! ## Chunker claims -/

/-- The gated-and-parameterised transfer reduces to the chunk loop with
capacity `max − hdr` and `ceil(S / capacity)` messages. -/
theorem large_ctrl_data_unfold (abi : Nat) (tx : ChunkMsg → Int)
    (rx : Nat → List Nat) (ctrl_type : SofCtrlType)
    (sparams : CtrlDataParams) (src dst : List Nat) (send : Bool)
    (habi : SOF_ABI_VER_3_3_0 ≤ abi) :
    sof_ipc_set_get_large_ctrl_data abi true tx rx ctrl_type sparams src dst
      send =
    ctrl_chunk_loop tx rx send sparams.hdr_bytes
      (SOF_IPC_MSG_MAX_SIZE - sparams.hdr_bytes) src
      (DIV_ROUND_UP sparams.msg_bytes
        (SOF_IPC_MSG_MAX_SIZE - sparams.hdr_bytes))
      0 sparams.msg_bytes 0 dst 0 := by
  obtain ⟨e1, e2, e3, e4⟩ := sof_get_ctrl_copy_params_fields ctrl_type sparams
  simp only [sof_ipc_set_get_large_ctrl_data]
  rw [if_neg (by omega), if_neg (by simp), e2, e3, e4, e1]

/-- Claim C3: a large-control transfer computes the per-message capacity
as the maximum message size minus the fixed header size, sends exactly
the ceiling of total bytes over capacity many messages in increasing
zero-based index order, and the chunk with index `j` carries this round
byte count, its zero-based sequence index, and the bytes remaining after
this round. -/
theorem c3_chunk_sequence (abi : Nat) (tx : ChunkMsg → Int)
    (rx : Nat → List Nat) (ctrl_type : SofCtrlType)
    (sparams : CtrlDataParams) (src dst : List Nat) (send : Bool)
    (habi : SOF_ABI_VER_3_3_0 ≤ abi)
    (hhdr : sparams.hdr_bytes < SOF_IPC_MSG_MAX_SIZE)
    (htx : ∀ m, 0 ≤ tx m) :
    (sof_ipc_set_get_large_ctrl_data abi true tx rx ctrl_type sparams src
      dst send).chunks.length =
      DIV_ROUND_UP sparams.msg_bytes
        (SOF_IPC_MSG_MAX_SIZE - sparams.hdr_bytes) ∧
    (sof_ipc_set_get_large_ctrl_data abi true tx rx ctrl_type sparams src
      dst send).chunks.map ChunkMsg.msg_index =
      List.range (DIV_ROUND_UP sparams.msg_bytes
        (SOF_IPC_MSG_MAX_SIZE - sparams.hdr_bytes)) ∧
    (sof_ipc_set_get_large_ctrl_data abi true tx rx ctrl_type sparams src
      dst send).chunks =
      (List.range (DIV_ROUND_UP sparams.msg_bytes
        (SOF_IPC_MSG_MAX_SIZE - sparams.hdr_bytes))).map
        (specChunk send sparams.hdr_bytes src sparams.msg_bytes
          (SOF_IPC_MSG_MAX_SIZE - sparams.hdr_bytes)) := by
  have hC : 0 < SOF_IPC_MSG_MAX_SIZE - sparams.hdr_bytes := by omega
  rw [large_ctrl_data_unfold abi tx rx ctrl_type sparams src dst send habi]
  obtain ⟨ht, he⟩ := ctrl_chunk_loop_ok tx rx send sparams.hdr_bytes
    (SOF_IPC_MSG_MAX_SIZE - sparams.hdr_bytes) src hC htx
    (DIV_ROUND_UP sparams.msg_bytes
      (SOF_IPC_MSG_MAX_SIZE - sparams.hdr_bytes))
    0 sparams.msg_bytes 0 dst 0 rfl (by norm_num)
  rw [ht]
  have hfe : (fun j => chunk_msg send sparams.hdr_bytes src (0 + j)
      (sparams.msg_bytes - (SOF_IPC_MSG_MAX_SIZE - sparams.hdr_bytes) * j)
      (0 + (SOF_IPC_MSG_MAX_SIZE - sparams.hdr_bytes) * j)
      (SOF_IPC_MSG_MAX_SIZE - sparams.hdr_bytes)) =
      specChunk send sparams.hdr_bytes src sparams.msg_bytes
        (SOF_IPC_MSG_MAX_SIZE - sparams.hdr_bytes) := by
    funext j
    simp only [chunk_msg, specChunk, Nat.zero_add]
    have e5 : sparams.msg_bytes -
        (SOF_IPC_MSG_MAX_SIZE - sparams.hdr_bytes) * j -
        min (sparams.msg_bytes -
          (SOF_IPC_MSG_MAX_SIZE - sparams.hdr_bytes) * j)
          (SOF_IPC_MSG_MAX_SIZE - sparams.hdr_bytes) =
        sparams.msg_bytes - min sparams.msg_bytes
          ((SOF_IPC_MSG_MAX_SIZE - sparams.hdr_bytes) * (j + 1)) := by
      simp only [Nat.mul_succ]
      omega
    rw [e5]
  rw [hfe]
  refine ⟨by simp, ?_, rfl⟩
  rw [List.map_map]
  have hme : (ChunkMsg.msg_index ∘ specChunk send sparams.hdr_bytes src
      sparams.msg_bytes (SOF_IPC_MSG_MAX_SIZE - sparams.hdr_bytes)) =
      fun j => j := by
    funext j
    simp [specChunk]
  rw [hme]
  simp

/-- Witness for C3: a 5-byte transfer with header size 382 (capacity 2)
produces exactly 3 chunks with indices 0, 1, 2. -/
theorem c3_chunk_sequence_witness :
    (sof_ipc_set_get_large_ctrl_data SOF_ABI_VER_3_3_0 true (fun _ => 0)
      (fun _ => []) SofCtrlType.data_set exChunkParams [1, 2, 3, 4, 5] []
      true).chunks.length = 3 ∧
    (sof_ipc_set_get_large_ctrl_data SOF_ABI_VER_3_3_0 true (fun _ => 0)
      (fun _ => []) SofCtrlType.data_set exChunkParams [1, 2, 3, 4, 5] []
      true).chunks.map ChunkMsg.msg_index = [0, 1, 2] := by
  have h := c3_chunk_sequence SOF_ABI_VER_3_3_0 (fun _ => 0) (fun _ => [])
    SofCtrlType.data_set exChunkParams [1, 2, 3, 4, 5] [] true
    (le_refl _) (by decide) (fun _ => le_refl 0)
  exact ⟨by rw [h.1]; decide, by rw [h.2.1]; decide⟩

/-- Claim C4: for a successful set-direction large-control transfer,
concatenating the payloads of all transmitted chunks in increasing index
order reproduces exactly the caller source buffer. -/
theorem c4_set_payload_concat (abi : Nat) (tx : ChunkMsg → Int)
    (rx : Nat → List Nat) (ctrl_type : SofCtrlType)
    (sparams : CtrlDataParams) (src dst : List Nat)
    (habi : SOF_ABI_VER_3_3_0 ≤ abi)
    (hhdr : sparams.hdr_bytes < SOF_IPC_MSG_MAX_SIZE)
    (htx : ∀ m, 0 ≤ tx m) (hlen : src.length = sparams.msg_bytes) :
    ((sof_ipc_set_get_large_ctrl_data abi true tx rx ctrl_type sparams src
      dst true).chunks.map ChunkMsg.payload).flatten = src := by
  have hC : 0 < SOF_IPC_MSG_MAX_SIZE - sparams.hdr_bytes := by omega
  rw [large_ctrl_data_unfold abi tx rx ctrl_type sparams src dst true habi]
  obtain ⟨ht, he⟩ := ctrl_chunk_loop_ok tx rx true sparams.hdr_bytes
    (SOF_IPC_MSG_MAX_SIZE - sparams.hdr_bytes) src hC htx
    (DIV_ROUND_UP sparams.msg_bytes
      (SOF_IPC_MSG_MAX_SIZE - sparams.hdr_bytes))
    0 sparams.msg_bytes 0 dst 0 rfl (by norm_num)
  rw [ht, List.map_map]
  have hpl : (ChunkMsg.payload ∘ fun j =>
      chunk_msg true sparams.hdr_bytes src (0 + j)
        (sparams.msg_bytes -
          (SOF_IPC_MSG_MAX_SIZE - sparams.hdr_bytes) * j)
        (0 + (SOF_IPC_MSG_MAX_SIZE - sparams.hdr_bytes) * j)
        (SOF_IPC_MSG_MAX_SIZE - sparams.hdr_bytes)) =
      fun j => (src.drop (0 + (SOF_IPC_MSG_MAX_SIZE - sparams.hdr_bytes) * j)).take
        (min (sparams.msg_bytes -
          (SOF_IPC_MSG_MAX_SIZE - sparams.hdr_bytes) * j)
          (SOF_IPC_MSG_MAX_SIZE - sparams.hdr_bytes)) := by
    funext j
    simp [chunk_msg]
  rw [hpl]
  rw [chunks_take_join (SOF_IPC_MSG_MAX_SIZE - sparams.hdr_bytes) hC src
    (DIV_ROUND_UP sparams.msg_bytes
      (SOF_IPC_MSG_MAX_SIZE - sparams.hdr_bytes))
    sparams.msg_bytes 0 rfl]
  rw [List.drop_zero, ← hlen, List.take_length]

/-- Witness for C4: the 5-byte set transfer with capacity 2 reassembles
to the source bytes. -/
theorem c4_set_payload_concat_witness :
    ((sof_ipc_set_get_large_ctrl_data SOF_ABI_VER_3_3_0 true (fun _ => 0)
      (fun _ => []) SofCtrlType.data_set exChunkParams [1, 2, 3, 4, 5] []
      true).chunks.map ChunkMsg.payload).flatten = [1, 2, 3, 4, 5] :=
  c4_set_payload_concat SOF_ABI_VER_3_3_0 (fun _ => 0) (fun _ => [])
    SofCtrlType.data_set exChunkParams [1, 2, 3, 4, 5] []
    (le_refl _) (by decide) (fun _ => le_refl 0) (by decide)

end Sof
